import Mathlib

/-!
# Shallow embedding of the r600 shader-IR ALU instruction model

This file embeds `src/gallium/drivers/r600/sfn/sfn_instr_alu.cpp` (the
`AluInstr` machine-instruction model of the r600 shader compiler) into Lean
and proves properties of the embedded code.

Modelling conventions:

* The virtual-value collaborator (registers, array elements, uniforms,
  literals, inline constants; file `sfn_virtualvalues.*`, not part of the
  excerpt) is modelled as a closed sum type `VirtualValue`.  Registers are
  modelled by value; a `LocalArrayValue` is a register whose `pin` is
  `Pin.array` and which carries an optional indirect-address register.
  `equal_to` on values compares the value kind together with the identifying
  `sel`/`chan` fields, per the collaborator contract in the specification.
* The register `uses`/`parents` bookkeeping (`update_uses`, `add_use`, ...)
  is shared mutable state across instructions.  No claim treated here
  observes those lists directly, except `do_ready`, which receives the
  readiness/uses information through explicit oracle functions.
* `C++` assertions (`ASSERT_OR_THROW`, `assert`, `unreachable`) are modelled
  by `Option`: a constructor or parser returns `none` exactly where the C++
  code aborts.
* Machine integers (`sel`, `chan`, block ids, indices) are modelled as `Nat`;
  none of the claims exercises integer overflow.
-/

namespace R600

/-- Register pin constraints (collaborator model; spec section 3/glossary). -/
inductive Pin where
  | none
  | chan
  | group
  | chgr
  | fully
  | free
  | array
  deriving DecidableEq, Repr

/-- The identifying state of a plain register: selector, channel, SSA flag
and pin.  Modelled from the value/register collaborator interface
(spec sections 2 and 6). -/
structure SimpleReg where
  sel : Nat
  chan : Nat
  ssa : Bool
  pin : Pin
  deriving DecidableEq, Repr

/-- A register.  A `LocalArrayValue` is represented as a register whose
`base.pin` is `Pin.array` together with the optional indirect address
register `addr` (the C++ code only ever uses `addr()->as_register()`, so the
address is modelled directly as a register when present). -/
structure Register where
  base : SimpleReg
  addr : Option SimpleReg := Option.none
  deriving DecidableEq, Repr

/-- The polymorphic operand model (spec section 9: closed tagged variant
with capability queries).  `reg` also covers array elements (see
`Register`). -/
inductive VirtualValue where
  | reg (r : Register)
  | uniform (sel : Nat) (bufAddr : Option SimpleReg)
  | literal (v : Nat)
  | inlineConst (sel : Nat) (chan : Nat)
  deriving DecidableEq, Repr

/-- `as_register()` capability query. -/
def VirtualValue.asRegister : VirtualValue → Option Register
  | .reg r => Option.some r
  | _ => Option.none

/-- `as_uniform()` capability query, returning the uniform's buffer-address
register (the only part of a uniform the embedded code inspects besides its
selector). -/
def VirtualValue.asUniformBufAddr : VirtualValue → Option (Option SimpleReg)
  | .uniform _ a => Option.some a
  | _ => Option.none

/-- Whether the value is a uniform. -/
def VirtualValue.isUniform : VirtualValue → Bool
  | .uniform _ _ => true
  | _ => false

/-- `pin()` of a virtual value: registers carry their pin, all other value
kinds report `pin_none`. -/
def VirtualValue.pinOf : VirtualValue → Pin
  | .reg r => r.base.pin
  | _ => Pin.none

/-- `equal_to` on the base-register data: selector and channel
(collaborator contract). -/
def SimpleReg.equalTo (a b : SimpleReg) : Bool :=
  a.sel == b.sel && a.chan == b.chan

/-- `equal_to` between two registers (selector and channel). -/
def Register.equalTo (a b : Register) : Bool :=
  a.base.equalTo b.base

/-- `equal_to` between virtual values: same kind and same identifying
fields (collaborator contract). -/
def VirtualValue.equalTo : VirtualValue → VirtualValue → Bool
  | .reg a, .reg b => a.equalTo b
  | .uniform s a, .uniform s2 a2 => s == s2 && a == a2
  | .literal v, .literal v2 => v == v2
  | .inlineConst s c, .inlineConst s2 c2 => s == s2 && c == c2
  | _, _ => false

/-- `get_addr()`: the indirect address register behind an array element
(`LocalArrayValue::get_addr`); all other value kinds have none. -/
def VirtualValue.getAddr : VirtualValue → Option SimpleReg
  | .reg r => if r.base.pin = Pin.array then r.addr else Option.none
  | _ => Option.none

/-- Regular ALU opcodes.  The full opcode metadata table `alu_ops` lives in
`sfn_alu_defines.h`, outside the excerpt; a representative closed set of
opcodes of each arity is modelled from the spec ("arity is validated against
a static opcode to arity table", spec section 4.1). -/
inductive EAluOp where
  | op1_mov
  | op1_ceil
  | op2_add
  | op2_setne
  | op3_cnde
  | op3_muladd
  deriving DecidableEq, Repr

/-- `alu_ops.at(op).nsrc`: source arity of a regular opcode.
Modelled from the spec: the static opcode metadata table. -/
def aluNsrc : EAluOp → Nat
  | .op1_mov => 1
  | .op1_ceil => 1
  | .op2_add => 2
  | .op2_setne => 2
  | .op3_cnde => 3
  | .op3_muladd => 3

/-- LDS (local data share) opcodes; representative closed set.
Modelled from the spec: the LDS opcode metadata table `lds_ops`. -/
inductive ESDOp where
  | lds_write
  | lds_read_ret
  | lds_add_ret
  deriving DecidableEq, Repr

/-- `lds_ops.at(op).nsrc`.  Modelled from the spec: the static LDS opcode
metadata table. -/
def ldsNsrc : ESDOp → Nat
  | .lds_write => 2
  | .lds_read_ret => 1
  | .lds_add_ret => 2

/-- Bank-swizzle assignment (6 named permutations or unknown). -/
inductive AluBankSwizzle where
  | alu_vec_012
  | alu_vec_021
  | alu_vec_102
  | alu_vec_120
  | alu_vec_201
  | alu_vec_210
  | alu_vec_unknown
  deriving DecidableEq, Repr

/-- The order in which the C++ `AluBankSwizzle` enum is iterated
(`alu_vec_012` up to, excluding, `alu_vec_unknown`). -/
def swizzleOrder : List AluBankSwizzle :=
  [.alu_vec_012, .alu_vec_021, .alu_vec_102, .alu_vec_120, .alu_vec_201,
   .alu_vec_210]

/-- Control-flow annotation of an ALU clause. -/
inductive ECFAluOpCode where
  | cf_alu
  | cf_alu_break
  | cf_alu_continue
  | cf_alu_else_after
  | cf_alu_extended
  | cf_alu_pop_after
  | cf_alu_pop2_after
  | cf_alu_push_before
  deriving DecidableEq, Repr

/-- The `AluModifiers` flag set of one instruction, as one field per flag
(the C++ `std::bitset` indexed by the `AluModifiers` enum). -/
structure AluFlags where
  src0_neg : Bool := false
  src1_neg : Bool := false
  src2_neg : Bool := false
  src0_abs : Bool := false
  src1_abs : Bool := false
  src0_rel : Bool := false
  src1_rel : Bool := false
  src2_rel : Bool := false
  write : Bool := false
  last_instr : Bool := false
  update_exec : Bool := false
  update_pred : Bool := false
  dst_clamp : Bool := false
  op3 : Bool := false
  is_lds : Bool := false
  is_cayman_trans : Bool := false
  b64_op : Bool := false
  no_schedule_bias : Bool := false
  deriving DecidableEq, Repr

/-- `src_neg_flags[k]` lookup on a flag set. -/
def negFlagOf (fl : AluFlags) : Nat → Bool
  | 0 => fl.src0_neg
  | 1 => fl.src1_neg
  | 2 => fl.src2_neg
  | _ => false

/-- `src_abs_flags[k]` lookup on a flag set (the C++ array has two
entries; the code never reads it at higher indices). -/
def absFlagOf (fl : AluFlags) : Nat → Bool
  | 0 => fl.src0_abs
  | 1 => fl.src1_abs
  | _ => false

/-- `flags.insert(src_neg_flags[i])`. -/
def insNeg (fl : AluFlags) : Nat → AluFlags
  | 0 => { fl with src0_neg := true }
  | 1 => { fl with src1_neg := true }
  | 2 => { fl with src2_neg := true }
  | _ => fl

/-- `flags.insert(src_abs_flags[i])`. -/
def insAbs (fl : AluFlags) : Nat → AluFlags
  | 0 => { fl with src0_abs := true }
  | 1 => { fl with src1_abs := true }
  | _ => fl

/-- Scheduling data of another instruction as seen through
`required_instr()` and a register's `uses()` list: its program position and
whether the external scheduler has marked it scheduled (spec section 3,
"Identity/position"). -/
structure InstrDep where
  blockId : Nat
  index : Nat
  scheduled : Bool
  deriving DecidableEq, Repr

/-- The ALU machine instruction (`class AluInstr`); field defaults follow
the in-class initialisers of the header. -/
structure AluInstr where
  opcode : EAluOp := .op1_mov
  ldsOpcode : ESDOp := .lds_write
  dest : Option Register := Option.none
  src : List VirtualValue := []
  flags : AluFlags := {}
  bankSwizzle : AluBankSwizzle := .alu_vec_unknown
  cfType : ECFAluOpCode := .cf_alu
  aluSlots : Nat := 1
  fallbackChan : Nat := 0
  blockId : Nat := 0
  index : Nat := 0
  requiredInstrs : List InstrDep := []
  extraDeps : List Register := []
  deriving DecidableEq, Repr

/-- `dest_chan()`: channel of the destination, or the fallback channel for
an instruction without one. -/
def AluInstr.destChan (i : AluInstr) : Nat :=
  match i.dest with
  | Option.some d => d.base.chan
  | Option.none => i.fallbackChan

/-- The canonical-form constructor body
(`AluInstr::AluInstr(EAluOp, PRegister, SrcValues, flags, int)`,
sfn_instr_alu.cpp:43-70) minus its assertions: store the fields, auto-set
`alu_op3` when three sources are given.  (`update_uses` maintains the
external uses/parents lists, which are not part of this model.) -/
def mkAluInstr (opcode : EAluOp) (dest : Option Register)
    (src : List VirtualValue) (flags : AluFlags) (slots : Nat) : AluInstr :=
  let fl := if src.length = 3 then { flags with op3 := true } else flags
  { opcode := opcode, dest := dest, src := src, flags := fl,
    aluSlots := slots }

/-- The checked regular-opcode constructor: the two `ASSERT_OR_THROW`
contract checks of sfn_instr_alu.cpp:62-67 (source count must be
`nsrc(opcode) * slots`; a set write flag needs a destination) modelled as
`Option`. -/
def mkAluInstrChecked (opcode : EAluOp) (dest : Option Register)
    (src : List VirtualValue) (flags : AluFlags) (slots : Nat) :
    Option AluInstr :=
  if src.length = aluNsrc opcode * slots then
    if flags.write && dest.isNone then Option.none
    else Option.some (mkAluInstr opcode dest src flags slots)
  else Option.none

/-- The LDS constructor from an address and optional `src0`/`src1`
(sfn_instr_alu.cpp:110-125): pushes the address first, then `src0`, then
`src1` (the latter only when `src0` is present); sets `alu_is_lds`; no
arity or write-flag assertion. -/
def mkLdsAddr (op : ESDOp) (src0 src1 : Option VirtualValue)
    (address : VirtualValue) : AluInstr :=
  let srcs := address ::
    (match src0 with
     | Option.some s0 =>
       s0 :: (match src1 with
              | Option.some s1 => [s1]
              | Option.none => [])
     | Option.none => [])
  { ldsOpcode := op, src := srcs, flags := { is_lds := true } }

/-- The LDS constructor from a raw source list and flag set
(sfn_instr_alu.cpp:127-136): stores the sources, sets the given flags plus
`alu_is_lds`; no arity or write-flag assertion. -/
def mkLdsRaw (op : ESDOp) (src : List VirtualValue) (flags : AluFlags) :
    AluInstr :=
  { ldsOpcode := op, src := src, flags := { flags with is_lds := true } }

/-- `m_src[0]` (the code indexes without a bounds check; the theorems that
use this carry the non-empty-source hypothesis of the call sites). -/
def AluInstr.src0 (i : AluInstr) : VirtualValue :=
  i.src.getD 0 (VirtualValue.literal 0)

/-- `AluInstr::can_copy_propagate` (sfn_instr_alu.cpp:363-374): a plain
1-source move with the write flag and no source-0 abs/neg and no clamp. -/
def canCopyPropagate (i : AluInstr) : Bool :=
  if i.opcode != EAluOp.op1_mov then false
  else if i.flags.src0_abs || i.flags.src0_neg || i.flags.dst_clamp then
    false
  else i.flags.write

/-- `AluInstr::can_propagate_src` (sfn_instr_alu.cpp:307-332).  The C++
`assert(m_dest)` (the destination exists whenever the write flag is set) is
modelled by returning `false` for a missing destination; the claim theorems
supply the destination explicitly. -/
def canPropagateSrc (i : AluInstr) : Bool :=
  if !canCopyPropagate i then false
  else
    match i.src0.asRegister with
    | Option.none => true
    | Option.some srcReg =>
      match i.dest with
      | Option.none => false
      | Option.some d =>
        if !d.base.ssa then false
        else if d.base.pin == Pin.fully then d.equalTo srcReg
        else if d.base.pin == Pin.chan then
          srcReg.base.pin == Pin.none ||
            (srcReg.base.pin == Pin.chan &&
             srcReg.base.chan == d.base.chan)
        else d.base.pin == Pin.none || d.base.pin == Pin.free

/-- `AluInstr::can_propagate_dest` (sfn_instr_alu.cpp:334-361); the
`assert(m_dest)` is modelled as for `canPropagateSrc`. -/
def canPropagateDest (i : AluInstr) : Bool :=
  if !canCopyPropagate i then false
  else
    match i.src0.asRegister with
    | Option.none => false
    | Option.some srcReg =>
      match i.dest with
      | Option.none => false
      | Option.some d =>
        if srcReg.base.pin == Pin.fully then false
        else if !srcReg.base.ssa then false
        else if srcReg.base.pin == Pin.chan then
          d.base.pin == Pin.none || d.base.pin == Pin.free ||
            ((d.base.pin == Pin.chan || d.base.pin == Pin.group) &&
             srcReg.base.chan == d.base.chan)
        else srcReg.base.pin == Pin.none || srcReg.base.pin == Pin.free

/-- Claim C5's description of the register case of `can_propagate_src`,
written from the spec's words for comparison with the code. -/
def specPropagateSrcReg (d srcReg : Register) : Bool :=
  d.base.ssa &&
    (if d.base.pin == Pin.fully then d.equalTo srcReg
     else if d.base.pin == Pin.chan then
       srcReg.base.pin == Pin.none ||
         (srcReg.base.pin == Pin.chan && srcReg.base.chan == d.base.chan)
     else d.base.pin == Pin.none || d.base.pin == Pin.free)

/-- Claim C6's description of the register case of `can_propagate_dest`,
written from the spec's words for comparison with the code. -/
def specPropagateDestReg (d srcReg : Register) : Bool :=
  if srcReg.base.pin == Pin.fully || !srcReg.base.ssa then false
  else if srcReg.base.pin == Pin.chan then
    d.base.pin == Pin.none || d.base.pin == Pin.free ||
      ((d.base.pin == Pin.chan || d.base.pin == Pin.group) &&
       srcReg.base.chan == d.base.chan)
  else srcReg.base.pin == Pin.none || srcReg.base.pin == Pin.free

/-! ## Read-port reservation collaborator and `replace_source`

`AluReadportReservation::schedule_vec_src` is an external collaborator; its
contract (spec section 4.4) is: given at most 3 operands and one bank
swizzle, report success or failure and, on success, record the port usage
in the reservation.  The reservation state is abstract: the definitions are
parametrised over any implementation of the contract. -/

/-- Abstract model of `AluReadportReservation` (spec-modelled collaborator
contract): a reservation state, a fresh state, and `schedule_vec_src`,
returning the updated state on success and `none` on failure. -/
structure ReadportModel where
  State : Type
  init : State
  schedVecSrc : State → List VirtualValue → Nat → AluBankSwizzle → Option State

/-- The operand vector of slot `s` with `old` replaced by `newV`, as built
by `check_readport_validation` (sfn_instr_alu.cpp:565-571; the replacement
test there is `old_src->equal_to(**ireg)`). -/
def rpvGroup (i : AluInstr) (nsrc s : Nat) (old : Register)
    (newV : VirtualValue) : List VirtualValue :=
  ((i.src.drop (s * nsrc)).take nsrc).map
    (fun v => if (VirtualValue.reg old).equalTo v then newV else v)

/-- Inner bank-swizzle loop of `check_readport_validation`
(sfn_instr_alu.cpp:564-579): each swizzle is tried against the running
reservation `rprSum`; on the first success the updated copy becomes the new
`rprSum` and the loop breaks, every failed attempt clears the `success`
flag (which is never set again, so a slot whose first swizzle fails can
never report success). -/
def rpvInner (M : ReadportModel) (group : List VirtualValue) (nsrc : Nat) :
    M.State → Bool → List AluBankSwizzle → M.State × Bool
  | rprSum, success, [] => (rprSum, success)
  | rprSum, success, bs :: rest =>
    match M.schedVecSrc rprSum group nsrc bs with
    | Option.some rpr => (rpr, success)
    | Option.none => rpvInner M group nsrc rprSum false rest

/-- `AluInstr::check_readport_validation` (sfn_instr_alu.cpp:551-582):
trivially true with fewer than 3 sources; otherwise runs the per-slot
swizzle trial, stopping at the first slot whose trial cleared `success`. -/
def checkReadportValidation (M : ReadportModel) (i : AluInstr)
    (old : Register) (newV : VirtualValue) : Bool :=
  if i.src.length < 3 then true
  else
    let nsrc := aluNsrc i.opcode
    let res := (List.range i.aluSlots).foldl
      (fun (acc : M.State × Bool) s =>
        if acc.2 then
          rpvInner M (rpvGroup i nsrc s old newV) nsrc acc.1 acc.2
            swizzleOrder
        else acc)
      (M.init, true)
    res.2

/-- The operand vector of slot `s` with `old` replaced by `newV`, as built
inside `replace_source` itself (sfn_instr_alu.cpp:418-421; there the
replacement test is `old_s->equal_to(*old_src)`). -/
def rsGroup (i : AluInstr) (nsrc s : Nat) (old : Register)
    (newV : VirtualValue) : List VirtualValue :=
  ((i.src.drop (s * nsrc)).take nsrc).map
    (fun v => if v.equalTo (VirtualValue.reg old) then newV else v)

/-- The swizzle trial of one slot inside `replace_source`
(sfn_instr_alu.cpp:423-429): try each swizzle in order against the running
reservation, stop at the first success; exhausting all swizzles fails. -/
def rsTrySlot (M : ReadportModel) (group : List VirtualValue) (nsrc : Nat)
    (st : M.State) : List AluBankSwizzle → Option M.State
  | [] => Option.none
  | bs :: rest =>
    match M.schedVecSrc st group nsrc bs with
    | Option.some st2 => Option.some st2
    | Option.none => rsTrySlot M group nsrc st rest

/-- The per-slot loop of the read-port trial inside `replace_source`
(sfn_instr_alu.cpp:418-432). -/
def rsTrySlots (M : ReadportModel) (i : AluInstr) (nsrc : Nat)
    (old : Register) (newV : VirtualValue) :
    List Nat → M.State → Option M.State
  | [], st => Option.some st
  | s :: rest, st =>
    match rsTrySlot M (rsGroup i nsrc s old newV) nsrc st swizzleOrder with
    | Option.some st2 => rsTrySlots M i nsrc old newV rest st2
    | Option.none => Option.none

/-- The substitution loop of `replace_source` (sfn_instr_alu.cpp:437-442):
replace every operand equal to `old` by `newV`. -/
def replMap (old : Register) (newV : VirtualValue)
    (l : List VirtualValue) : List VirtualValue :=
  l.map (fun s => if (VirtualValue.reg old).equalTo s then newV else s)

/-- Whether the substitution loop of `replace_source` found a match (the
`process` flag of sfn_instr_alu.cpp:379/441). -/
def replHit (old : Register) (l : List VirtualValue) : Bool :=
  l.any (fun s => (VirtualValue.reg old).equalTo s)

/-- The read-port trial of `replace_source` (sfn_instr_alu.cpp:410-435):
performed only when more than two operands are involved or the instruction
sits in a group; starts from the group's reservation when present, else a
fresh one; on success the group's reservation (when present) is updated.
`none` is the `return false` of sfn_instr_alu.cpp:430-431. -/
def rsReadportTrial (M : ReadportModel) (grp : Option M.State)
    (i : AluInstr) (old : Register) (newV : VirtualValue) :
    Option (Option M.State) :=
  if decide (2 < i.aluSlots * aluNsrc i.opcode) || grp.isSome then
    match rsTrySlots M i (aluNsrc i.opcode) old newV
        (List.range i.aluSlots) (grp.getD M.init) with
    | Option.some st =>
      Option.some (if grp.isSome then Option.some st else grp)
    | Option.none => Option.none
  else Option.some grp

/-- `AluInstr::replace_source` (sfn_instr_alu.cpp:376-450), returning the
C++ boolean result together with the updated instruction and the updated
parent-group reservation (`m_parent_group` is modelled by `grp`: `none`
when the instruction has no parent group).  The `add_use`/`del_use`
bookkeeping on the external use lists is outside the model. -/
def replaceSource (M : ReadportModel) (grp : Option M.State) (i : AluInstr)
    (old : Register) (newV : VirtualValue) :
    Bool × AluInstr × Option M.State :=
  if !checkReadportValidation M i old newV then (false, i, grp)
  else if old.base.pin == Pin.array then (false, i, grp)
  else if (match newV.getAddr with
           | Option.some na =>
             i.src.any (fun s =>
               match s.getAddr with
               | Option.some a => !a.equalTo na
               | Option.none => false)
           | Option.none => false) then (false, i, grp)
  else if (match i.dest with
           | Option.some d =>
             if d.base.pin == Pin.array && newV.pinOf == Pin.array then
               match d.addr, newV.getAddr with
               | Option.some dav, Option.some sav => !dav.equalTo sav
               | _, _ => false
             else false
           | Option.none => false) then (false, i, grp)
  else
    match rsReadportTrial M grp i old newV with
    | Option.none => (false, i, grp)
    | Option.some grp2 =>
      (replHit old i.src, { i with src := replMap old newV i.src }, grp2)

/-! ## `split()` — multi-slot decomposition -/

/-- `ValueFactory::dummy_dest(chan)` (spec-modelled collaborator, spec
section 4.5: a throwaway dummy register for the slots that do not write the
real destination). -/
def dummyDest (s : Nat) : Register :=
  { base := { sel := 1000 + s, chan := s, ssa := false, pin := Pin.none } }

/-- Destination of slot `s` of a split (sfn_instr_alu.cpp:697-703): the
real destination on its own channel, a dummy elsewhere; unless already
`pin_chgr`, the pin becomes `pin_chgr` (for a group-pinned real
destination) or `pin_chan`. -/
def splitDst (d : Register) (s : Nat) : Register :=
  let dst := if d.base.chan = s then d else dummyDest s
  if dst.base.pin != Pin.chgr then
    let p := if dst.base.pin == Pin.group && d.base.chan == s then Pin.chgr
             else Pin.chan
    { dst with base := { dst.base with pin := p } }
  else dst

/-- Per-source pinning applied by `split` (sfn_instr_alu.cpp:711-717):
free/unpinned source registers become channel-pinned, group-pinned ones
become channel-group-pinned.  (In C++ this mutates the shared register;
registers are modelled by value, so the update is recorded in the new
instruction's operand list.) -/
def splitSrcVal : VirtualValue → VirtualValue
  | .reg r =>
    if r.base.pin == Pin.free || r.base.pin == Pin.none then
      .reg { r with base := { r.base with pin := Pin.chan } }
    else if r.base.pin == Pin.group then
      .reg { r with base := { r.base with pin := Pin.chgr } }
    else .reg r
  | v => v

/-- One iteration of the `split` loop (sfn_instr_alu.cpp:695-750): build
the single-slot instruction of slot `s`. -/
def splitOne (i : AluInstr) (d : Register) (s : Nat) : AluInstr :=
  let nsrc := aluNsrc i.opcode
  let srcs := ((i.src.drop (s * nsrc)).take nsrc).map splitSrcVal
  let a := mkAluInstr i.opcode (Option.some (splitDst d s)) srcs {} 1
  let fl1 :=
    if s = 0 || !i.flags.b64_op then
      { a.flags with
        src0_neg := i.flags.src0_neg, src1_neg := i.flags.src1_neg,
        src2_neg := i.flags.src2_neg, src0_abs := i.flags.src0_abs,
        src1_abs := i.flags.src1_abs }
    else a.flags
  let fl2 := if i.flags.dst_clamp then { fl1 with dst_clamp := true }
             else fl1
  let fl3 := if s = d.base.chan then { fl2 with write := true } else fl2
  { a with flags := fl3, blockId := i.blockId, index := i.index }

/-- `AluInstr::split` (sfn_instr_alu.cpp:683-761).  Returns `none` for a
single-slot instruction (the C++ returns `nullptr`); the C++ code then
dereferences `m_dest`, so a missing destination is a modelled precondition
failure.  The produced `AluGroup` is modelled as the list of its
instructions: per the collaborator contract (spec section 6)
`AluGroup::add_instruction` either accepts the instruction into the group
or the split aborts (`unreachable`), so a returned group holds exactly the
instructions built by the loop, in slot order. -/
def split (i : AluInstr) : Option (List AluInstr) :=
  if i.aluSlots = 1 then Option.none
  else
    match i.dest with
    | Option.none => Option.none
    | Option.some d =>
      Option.some ((List.range i.aluSlots).map (splitOne i d))

/-! ## `do_ready()` — scheduler readiness -/

/-- Readiness context for `do_ready`: the collaborator state `do_ready`
consults.  `regReady r b idx` is `r->ready(b, idx)` (the register's own
readiness tracking, external to the excerpt); `usesOf r` is the scheduling
data of the instructions in `r->uses()`. -/
structure ReadyCtx where
  regReady : Register → Nat → Nat → Bool
  usesOf : Register → List InstrDep

/-- Wrap a bare address register for the readiness oracle. -/
def liftReg (s : SimpleReg) : Register := { base := s }

/-- `AluInstr::do_ready` (sfn_instr_alu.cpp:1073-1124): all required
instructions scheduled; every register (and uniform buffer-address
register) source ready; for a non-SSA destination, the indirect-array
hazard check and the write-after-read check over the destination's uses;
every extra dependency ready. -/
def doReady (ctx : ReadyCtx) (i : AluInstr) : Bool :=
  i.requiredInstrs.all (fun r => r.scheduled) &&
  i.src.all (fun s =>
    (match s.asRegister with
     | Option.some r => ctx.regReady r i.blockId i.index
     | Option.none => true) &&
    (match s.asUniformBufAddr with
     | Option.some (Option.some a) =>
       ctx.regReady (liftReg a) i.blockId i.index
     | _ => true)) &&
  (match i.dest with
   | Option.some d =>
     if !d.base.ssa then
       (if d.base.pin == Pin.array then
          match d.addr with
          | Option.some addr =>
            ctx.regReady (liftReg addr) i.blockId i.index &&
              ctx.regReady d i.blockId (i.index - 1)
          | Option.none => true
        else true) &&
       (ctx.usesOf d).all (fun u =>
         !(u.blockId ≤ i.blockId && u.index < i.index && !u.scheduled))
     else true
   | Option.none => true) &&
  i.extraDeps.all (fun r => ctx.regReady r i.blockId i.index)

/-! ## `emit_alu_op2` — lowering a two-source nir ALU operation -/

/-- One source operand of a generic (nir) ALU operation: modifier flags and
the per-component operand produced by `value_factory.src(src, i)`
(spec-modelled collaborator `ValueFactory`). -/
structure NirAluSrc where
  negate : Bool
  abs : Bool
  val : Nat → VirtualValue

/-- A two-source generic (nir) ALU operation as `emit_alu_op2` consumes it:
both sources, the destination component count and write mask, the saturate
modifier, and the per-component destination register produced by
`value_factory.dest(dest, i, pin)` (spec-modelled collaborator). -/
structure NirAluOp2 where
  srcA : NirAluSrc
  srcB : NirAluSrc
  numComponents : Nat
  writeMask : Nat
  saturate : Bool
  destOf : Nat → Register

/-- `AluInstr::Op2Options` (bit flags `op2_opt_reverse`,
`op2_opt_neg_src1`). -/
structure Op2Options where
  opt_reverse : Bool := false
  opt_neg_src1 : Bool := false
  deriving DecidableEq, Repr

/-- `if (ir) ir->set_alu_flag(alu_last_instr);` — the trailing statement of
the emit helpers: the last emitted instruction (the one `ir` still points
to) gets the last-instruction flag. -/
def setLastOnFinal : List AluInstr → List AluInstr
  | [] => []
  | [a] => [{ a with flags := { a.flags with last_instr := true } }]
  | a :: rest => a :: setLastOnFinal rest

/-- The instruction `emit_alu_op2` builds for component `i`
(sfn_instr_alu.cpp:2210-2225), after the optional source swap; `s0`/`s1`
are the (possibly swapped) sources and `src1Negate` the combined negate of
the second one. -/
def emitOp2One (opcode : EAluOp) (s0 s1 : NirAluSrc) (src1Negate : Bool)
    (saturate : Bool) (destOf : Nat → Register) (i : Nat) : AluInstr :=
  let a := mkAluInstr opcode (Option.some (destOf i)) [s0.val i, s1.val i]
    { write := true } 1
  { a with flags :=
    { a.flags with
      src0_neg := s0.negate, src0_abs := s0.abs,
      src1_neg := src1Negate, src1_abs := s1.abs,
      dst_clamp := saturate } }

/-- `emit_alu_op2` (sfn_instr_alu.cpp:2187-2232): optionally swap the two
sources, fold `op2_opt_neg_src1` into the second source's negate, emit one
write-enabled instruction per write-mask-enabled destination component, and
finally set `alu_last_instr` on the last instruction emitted. -/
def emitAluOp2 (alu : NirAluOp2) (opcode : EAluOp) (opts : Op2Options) :
    List AluInstr :=
  let s0 := if opts.opt_reverse then alu.srcB else alu.srcA
  let s1 := if opts.opt_reverse then alu.srcA else alu.srcB
  let src1Negate := xor opts.opt_neg_src1 s1.negate
  let emitted := (List.range alu.numComponents).filterMap (fun i =>
    if alu.writeMask.testBit i then
      Option.some (emitOp2One opcode s0 s1 src1Negate alu.saturate
        alu.destOf i)
    else Option.none)
  setLastOnFinal emitted

/-! ## Text form: `do_print` / `from_string`

`from_string` tokenises its input on whitespace and dispatches on token
shape, and `do_print` emits one whitespace-separated token per syntactic
element, so the text form is modelled at the token level: `Tok` is the
alphabet of tokens.  Rendering and re-parsing of a single operand
(`operator<<` on values, `ValueFactory::src_from_string` /
`dest_from_string`) lives in the value-factory collaborator outside the
excerpt; per the spec (section 4.8: `from_string` is the exact inverse of
`do_print`) a source token carries its operand and its printed neg/abs
decorations directly, and opcode-name tokens carry the opcode (the
name-to-opcode maps of spec section 6 are injective: map keys are unique).
A destination token is either a printed register (`R1.x` forms) or the
write-masked `__.chan[@pin]` form, which only records channel and pin. -/
inductive Tok where
  | alu
  | lds
  | colon
  | plus
  | clamp
  | opname (op : EAluOp)
  | ldsname (op : ESDOp)
  | destWrite (r : Register)
  | destBlank (chan : Nat) (p : Pin)
  | srcTok (negD absD : Bool) (v : VirtualValue)
  | flagsTok (w l e p : Bool)
  | bank (b : AluBankSwizzle)
  | cfTok (c : ECFAluOpCode)
  deriving DecidableEq, Repr

/-- The source token printed for slot `s`, slot-local operand `k`
(sfn_instr_alu.cpp:264-284): the neg decoration comes from
`src_neg_flags[k]`, the abs decoration from `src_abs_flags[k]` but only
while the global operand index is below 2, and the operand itself is
`m_src[global index]`. -/
def srcTokAt (i : AluInstr) (nPerSlot s k : Nat) : Tok :=
  Tok.srcTok (negFlagOf i.flags k)
    (decide (s * nPerSlot + k < 2) && absFlagOf i.flags k)
    (i.src.getD (s * nPerSlot + k) (VirtualValue.literal 0))

/-- The source tokens of one slot (inner loop of sfn_instr_alu.cpp:264). -/
def groupToks (i : AluInstr) (nPerSlot s : Nat) : List Tok :=
  (List.range nPerSlot).map (srcTokAt i nPerSlot s)

/-- The source tokens from slot `s` on, for `rem` more slots (outer loop of
sfn_instr_alu.cpp:259-285): slots after the first are preceded by a `+`
token. -/
def printSrcToksFrom (i : AluInstr) (nPerSlot : Nat) :
    Nat → Nat → List Tok
  | _, 0 => []
  | s, rem + 1 =>
    (if 0 < s then [Tok.plus] else []) ++ groupToks i nPerSlot s ++
      printSrcToksFrom i nPerSlot (s + 1) rem

/-- Bank-swizzle suffix token: printed only when the swizzle is in
`bank_swizzle_map`, i.e. not unknown (sfn_instr_alu.cpp:298-300). -/
def bankToks : AluBankSwizzle → List Tok
  | .alu_vec_unknown => []
  | b => [Tok.bank b]

/-- Control-flow suffix token: printed only when the cf type is in
`cf_map`, i.e. not the plain `cf_alu` (sfn_instr_alu.cpp:302-304). -/
def cfToks : ECFAluOpCode → List Tok
  | .cf_alu => []
  | c => [Tok.cfTok c]

/-- The destination token printed by `do_print`
(sfn_instr_alu.cpp:242-253): the register itself under a write flag, the
write-masked `__.chan[@pin]` form otherwise, and `__.<fallback chan>` when
there is no destination. -/
def destTok (i : AluInstr) : Tok :=
  match i.dest with
  | Option.some d =>
    if i.flags.write then Tok.destWrite d
    else Tok.destBlank d.base.chan d.base.pin
  | Option.none => Tok.destBlank i.fallbackChan Pin.none

/-- The instruction-head tokens printed by `do_print`
(sfn_instr_alu.cpp:231-254): `LDS <name> __.x` for an LDS instruction,
else the opcode name, an optional `CLAMP`, and the destination token. -/
def hdrToks (i : AluInstr) : List Tok :=
  if i.flags.is_lds then
    [Tok.lds, Tok.ldsname i.ldsOpcode, Tok.destBlank 0 Pin.none]
  else
    Tok.opname i.opcode ::
      ((if i.flags.dst_clamp then [Tok.clamp] else []) ++ [destTok i])

/-- `AluInstr::do_print` (sfn_instr_alu.cpp:224-305) at token level.
Of the per-source modifier flags only neg and abs render anything (the
`is_rel` print flag is computed but never printed); of the instruction
flags only W/L/E/P appear, inside the braces token. -/
def printTokens (i : AluInstr) : List Tok :=
  let nPerSlot := if i.flags.is_lds then i.src.length else aluNsrc i.opcode
  [Tok.alu] ++ hdrToks i ++ [Tok.colon] ++
  printSrcToksFrom i nPerSlot 0 i.aluSlots ++
  [Tok.flagsTok i.flags.write i.flags.last_instr i.flags.update_exec
    i.flags.update_pred] ++
  bankToks i.bankSwizzle ++ cfToks i.cfType

/-- `AluInstr::is_equal_to` (sfn_instr_alu.cpp:592-626); `a` is `*this`
and `lhs` the argument.  Note that the comparison covers the whole flag
set, the regular opcode, bank swizzle and cf type, the destination (by
`equal_to` under a write flag, by channel otherwise) and the sources
pairwise by `equal_to`. -/
def isEqualTo (a lhs : AluInstr) : Bool :=
  if lhs.opcode != a.opcode || lhs.bankSwizzle != a.bankSwizzle ||
     lhs.cfType != a.cfType || lhs.flags != a.flags then false
  else
    (match a.dest, lhs.dest with
     | Option.some d, Option.some d2 =>
       if a.flags.write then d.equalTo d2 else d.base.chan == d2.base.chan
     | Option.some _, Option.none => false
     | Option.none, Option.some _ => false
     | Option.none, Option.none => true) &&
    a.src.length == lhs.src.length &&
    (List.zip a.src lhs.src).all (fun p => p.1.equalTo p.2)

/-- `ValueFactory::dest_from_string` on a `__.chan[@pin]` destination
token (spec-modelled collaborator): a register carrying the printed
channel and pin. -/
def blankReg (c : Nat) (p : Pin) : Register :=
  { base := { sel := 0, chan := c, ssa := false, pin := p } }

/-- The header of `from_string` (sfn_instr_alu.cpp:884-899): optional
`LDS` keyword, opcode token, destination token with optional preceding
`CLAMP` (which seeds the clamp flag). -/
def parseHeader (toks : List Tok) :
    Option (Bool × Tok × AluFlags × Tok × List Tok) :=
  let p : Bool × List Tok :=
    match toks with
    | Tok.lds :: r => (true, r)
    | _ => (false, toks)
  match p.2 with
  | opTok :: dTok0 :: r2 =>
    if dTok0 = Tok.clamp then
      match r2 with
      | dTok1 :: r3 =>
        Option.some (p.1, opTok, { dst_clamp := true }, dTok1, r3)
      | [] => Option.none
    else Option.some (p.1, opTok, {}, dTok0, r2)
  | _ => Option.none

/-- The inner source loop of one slot group in `from_string`
(sfn_instr_alu.cpp:948-974): `rem` operands remain, `idx` is the
slot-local operand index.  A neg/abs decoration inserts the matching flag
on the first slot and asserts the flag is already present on later slots
(`assert(flags.find(...) != flags.end())`, modelled as failure). -/
def parseSrcGroup (firstSlot : Bool) :
    Nat → Nat → List Tok → AluFlags → List VirtualValue →
    Option (List Tok × AluFlags × List VirtualValue)
  | _, 0, toks, fl, acc => Option.some (toks, fl, acc)
  | idx, rem + 1, toks, fl, acc =>
    match toks with
    | Tok.srcTok negD absD v :: rest =>
      let step1 : Option AluFlags :=
        if negD then
          if firstSlot then Option.some (insNeg fl idx)
          else if negFlagOf fl idx then Option.some fl else Option.none
        else Option.some fl
      match step1 with
      | Option.none => Option.none
      | Option.some fl1 =>
        let step2 : Option AluFlags :=
          if absD then
            if firstSlot then Option.some (insAbs fl1 idx)
            else if absFlagOf fl1 idx then Option.some fl1
            else Option.none
          else Option.some fl1
        match step2 with
        | Option.none => Option.none
        | Option.some fl2 =>
          parseSrcGroup firstSlot (idx + 1) rem rest fl2 (acc ++ [v])
    | _ => Option.none

/-- The slot do-while loop of `from_string` (sfn_instr_alu.cpp:946-976):
each iteration consumes one separator token (the `:` on the first
iteration, the `+` the loop condition just saw on later ones), parses
`nsrc` source tokens, and continues while the next token is `+`.  `fuel`
bounds the iteration count (the C++ loop is bounded by the token stream;
running out of tokens at the separator is the C++ end-iterator
dereference, modelled as failure). -/
def parseSlotsLoop (nsrc : Nat) :
    Nat → List Tok → AluFlags → List VirtualValue → Nat →
    Option (List Tok × AluFlags × List VirtualValue × Nat)
  | 0, _, _, _, _ => Option.none
  | fuel + 1, toks, fl, acc, slots =>
    match toks with
    | [] => Option.none
    | _sep :: rest =>
      match parseSrcGroup (slots == 0) 0 nsrc rest fl acc with
      | Option.none => Option.none
      | Option.some (rest2, fl2, acc2) =>
        match rest2 with
        | Tok.plus :: _ => parseSlotsLoop nsrc fuel rest2 fl2 acc2 (slots + 1)
        | _ => Option.some (rest2, fl2, acc2, slots + 1)

/-- The trailing token loop of `from_string` (sfn_instr_alu.cpp:981-1051):
a braces token inserts the W/L/E/P flags it contains, a bank-swizzle token
sets the swizzle, a control-flow token sets the cf type; any other token
is the `unreachable("Unknown tocken...")` abort. -/
def parseTrailing :
    List Tok → AluFlags → AluBankSwizzle → ECFAluOpCode →
    Option (AluFlags × AluBankSwizzle × ECFAluOpCode)
  | [], fl, bs, cf => Option.some (fl, bs, cf)
  | Tok.flagsTok w l e p :: rest, fl, bs, cf =>
    let fl1 := if w then { fl with write := true } else fl
    let fl2 := if l then { fl1 with last_instr := true } else fl1
    let fl3 := if e then { fl2 with update_exec := true } else fl2
    let fl4 := if p then { fl3 with update_pred := true } else fl3
    parseTrailing rest fl4 bs cf
  | Tok.bank b :: rest, fl, _, cf => parseTrailing rest fl b cf
  | Tok.cfTok c :: rest, fl, bs, _ => parseTrailing rest fl bs c
  | _, _, _, _ => Option.none

/-- Destination resolution of `from_string` (sfn_instr_alu.cpp:1053-1056
with the spec-modelled `ValueFactory::dest_from_string`): a printed
register parses to itself, a `__.chan[@pin]` form to the corresponding
placeholder register; any other token in destination position is a
malformed destination string (abort). -/
def destFromTok : Tok → Option (Option Register)
  | Tok.destWrite r => Option.some (Option.some r)
  | Tok.destBlank c p => Option.some (Option.some (blankReg c p))
  | _ => Option.none

/-- Opcode-name resolution of `from_string` (sfn_instr_alu.cpp:900-941):
the name is looked up in the LDS or the regular opcode table according to
the `LDS` keyword; an unknown name is the `unreachable("Unknown opcode")`
abort. -/
def opFromTok (isLds : Bool) (opTok : Tok) : Option ((EAluOp ⊕ ESDOp) × Nat) :=
  if isLds then
    match opTok with
    | Tok.ldsname op => Option.some (Sum.inr op, ldsNsrc op)
    | _ => Option.none
  else
    match opTok with
    | Tok.opname op => Option.some (Sum.inl op, aluNsrc op)
    | _ => Option.none

/-- Construction through the checked regular constructor, recording bank
swizzle and cf type (sfn_instr_alu.cpp:1062-1065). -/
def fromTokensMk (aluOp : EAluOp) (dest : Option Register)
    (sources : List VirtualValue) (fl2 : AluFlags) (slots : Nat)
    (bs : AluBankSwizzle) (cf : ECFAluOpCode) : Option AluInstr :=
  match mkAluInstrChecked aluOp dest sources fl2 slots with
  | Option.none => Option.none
  | Option.some a =>
    Option.some { a with bankSwizzle := bs, cfType := cf }

/-- Final phase of `from_string` (sfn_instr_alu.cpp:1053-1070): resolve
the destination token and construct the instruction through the LDS or the
checked regular constructor, then record bank swizzle and cf type. -/
def fromTokensFinish (opc : EAluOp ⊕ ESDOp) (dTok : Tok)
    (sources : List VirtualValue) (fl2 : AluFlags) (slots : Nat)
    (bs : AluBankSwizzle) (cf : ECFAluOpCode) : Option AluInstr :=
  match destFromTok dTok with
  | Option.none => Option.none
  | Option.some dest =>
    match opc with
    | Sum.inr ldsOp =>
      Option.some { mkLdsRaw ldsOp sources fl2 with
        bankSwizzle := bs, cfType := cf }
    | Sum.inl aluOp => fromTokensMk aluOp dest sources fl2 slots bs cf

/-- Trailing phase of `from_string`: parse `{flags}`, bank swizzle and cf
tokens, then finish. -/
def fromTokensTrail (opc : EAluOp ⊕ ESDOp) (dTok : Tok) (rest2 : List Tok)
    (fl1 : AluFlags) (sources : List VirtualValue) (slots : Nat) :
    Option AluInstr :=
  match parseTrailing rest2 fl1 .alu_vec_unknown .cf_alu with
  | Option.none => Option.none
  | Option.some (fl2, bs, cf) =>
    fromTokensFinish opc dTok sources fl2 slots bs cf

/-- Source phase of `from_string`: run the slot do-while loop (starting at
the `:` separator token), then the trailing phase. -/
def fromTokensSlots (opc : EAluOp ⊕ ESDOp) (nsrc : Nat) (dTok : Tok)
    (fl0 : AluFlags) (rest : List Tok) : Option AluInstr :=
  match parseSlotsLoop nsrc (rest.length + 1) rest fl0 [] 0 with
  | Option.none => Option.none
  | Option.some (rest2, fl1, sources, slots) =>
    fromTokensTrail opc dTok rest2 fl1 sources slots

/-- Body of `from_string` after the header: check the `:` separator
(`assert(*t == ":")`, sfn_instr_alu.cpp:899), resolve the opcode name, and
run the source phase. -/
def fromTokensBody (isLds : Bool) (opTok : Tok) (fl0 : AluFlags)
    (dTok : Tok) (rest : List Tok) : Option AluInstr :=
  match rest with
  | Tok.colon :: _ =>
    match opFromTok isLds opTok with
    | Option.none => Option.none
    | Option.some (opc, nsrc) => fromTokensSlots opc nsrc dTok fl0 rest
  | _ => Option.none

/-- `AluInstr::from_string` (sfn_instr_alu.cpp:868-1071) at token level:
parse the header, then the body phases. -/
def fromTokens (toks : List Tok) : Option AluInstr :=
  match parseHeader toks with
  | Option.none => Option.none
  | Option.some (isLds, opTok, fl0, dTok, rest) =>
    fromTokensBody isLds opTok fl0 dTok rest

/-- The serialization dispatcher (spec-modelled: the stream reader that
owns the per-instruction-kind dispatch consumes the leading `ALU` keyword
before handing the rest to `AluInstr::from_string`). -/
def fromString (toks : List Tok) : Option AluInstr :=
  match toks with
  | Tok.alu :: rest => fromTokens rest
  | _ => Option.none

/-! ## Concrete values used by the example theorems -/

/-- A trivial read-port collaborator whose `schedule_vec_src` always
succeeds (used to instantiate example theorems). -/
def trivialRPM : ReadportModel :=
  { State := Unit, init := (), schedVecSrc := fun _ _ _ _ => Option.some () }

/-- `R0.x`-style SSA register. -/
def regR0x : Register :=
  { base := { sel := 0, chan := 0, ssa := true, pin := Pin.none } }

/-- `R1.x`-style SSA register. -/
def regR1x : Register :=
  { base := { sel := 1, chan := 0, ssa := true, pin := Pin.none } }

/-- `R2.x`-style SSA register. -/
def regR2x : Register :=
  { base := { sel := 2, chan := 0, ssa := true, pin := Pin.none } }

/-- An array-element register (pin `array`) with an indirect address. -/
def regArr : Register :=
  { base := { sel := 7, chan := 1, ssa := false, pin := Pin.array },
    addr := Option.some { sel := 9, chan := 0, ssa := false, pin := Pin.none } }

/-- A `MOV R0.x, R1.x` with write flag: the plain copy instruction. -/
def movRegInstr : AluInstr :=
  mkAluInstr .op1_mov (Option.some regR0x) [VirtualValue.reg regR1x]
    { write := true } 1

/-- A `MOV R0.x, literal` with write flag. -/
def movLitInstr : AluInstr :=
  mkAluInstr .op1_mov (Option.some regR0x) [VirtualValue.literal 5]
    { write := true } 1

/-- An empty readiness context. -/
def emptyCtx : ReadyCtx :=
  { regReady := fun _ _ _ => true, usesOf := fun _ => [] }

/-- An instruction whose only content is one unscheduled required
instruction. -/
def needsInstr : AluInstr :=
  { requiredInstrs := [{ blockId := 0, index := 0, scheduled := false }] }

/-- The completely empty instruction (no sources, no destination, no
dependencies). -/
def emptyInstr : AluInstr := {}

/-! ## Values used by the round-trip development -/

/-- The flag set reconstructed by the source-parsing phase of
`from_string` on printed input: the text form encodes exactly the
per-source neg flags, the two per-source abs flags and the clamp flag at
this stage (W/L/E/P follow in the trailing braces token). -/
def parsedBase (fl : AluFlags) : AluFlags :=
  { src0_neg := fl.src0_neg, src1_neg := fl.src1_neg,
    src2_neg := fl.src2_neg, src0_abs := fl.src0_abs,
    src1_abs := fl.src1_abs, dst_clamp := fl.dst_clamp }

/-- The operand values printed for slot `s`. -/
def grpVals (i : AluInstr) (nsrc s : Nat) : List VirtualValue :=
  (List.range nsrc).map
    (fun k => i.src.getD (s * nsrc + k) (VirtualValue.literal 0))

/-- The operand values printed for `m` slots starting at slot `s`. -/
def valsFrom (i : AluInstr) (nsrc : Nat) : Nat → Nat → List VirtualValue
  | _, 0 => []
  | s, m + 1 => grpVals i nsrc s ++ valsFrom i nsrc (s + 1) m

/-- The instruction built by the final phase of `from_string`: the
checked-constructor result with the parsed bank swizzle and cf type
recorded. -/
def reparsed (op : EAluOp) (dst : Option Register)
    (src : List VirtualValue) (fl : AluFlags) (slots : Nat)
    (bs : AluBankSwizzle) (cf : ECFAluOpCode) : AluInstr :=
  { mkAluInstr op dst src fl slots with bankSwizzle := bs, cfType := cf }

/-- Whether a token list does not begin with the `+` separator (the
condition under which the slot do-while loop of `from_string` stops). -/
def notPlusHead : List Tok → Bool
  | Tok.plus :: _ => false
  | _ => true

/-- Counterexample instruction for the round-trip claim: a regular move
carrying the (un-printed) 64-bit-op flag. -/
def c1bad : AluInstr :=
  mkAluInstr .op1_mov (Option.some regR0x) [VirtualValue.reg regR1x]
    { write := true, b64_op := true } 1

/-- The spec's own example `ALU ADD R0.x : R1.x R2.x {W}`. -/
def addExample : AluInstr :=
  mkAluInstr .op2_add (Option.some regR0x)
    [VirtualValue.reg regR1x, VirtualValue.reg regR2x] { write := true } 1

/-- A 4-slot `MOV`-shaped instruction used to exercise `split`. -/
def c3i : AluInstr :=
  mkAluInstr .op1_mov (Option.some regR0x)
    [VirtualValue.literal 1, VirtualValue.literal 2, VirtualValue.literal 3,
     VirtualValue.literal 4]
    { write := true } 4

/-- A 2-slot instruction carrying the last-instruction flag, whose
destination channel is 0 (so claim C4 predicts the slot-0 split result
carries the flag). -/
def c4i : AluInstr :=
  mkAluInstr .op1_mov (Option.some regR0x)
    [VirtualValue.literal 1, VirtualValue.literal 2]
    { write := true, last_instr := true } 2

/-- A concrete two-component `fadd`-shaped nir operation whose second
source is negated and absolute-valued. -/
def c9alu : NirAluOp2 :=
  { srcA := { negate := false, abs := false,
              val := fun _ => VirtualValue.reg regR1x },
    srcB := { negate := true, abs := true,
              val := fun _ => VirtualValue.reg regR2x },
    numComponents := 2,
    writeMask := 3,
    saturate := false,
    destOf := fun k =>
      { base := { sel := 0, chan := k, ssa := true, pin := Pin.none } } }

/-! ## Helper lemmas -/

/-- A conditional-replacement map is the identity when no element matches. -/
theorem map_ite_eq_self_of_any_eq_false {α : Type} (l : List α)
    (p : α → Bool) (y : α) (h : l.any p = false) :
    l.map (fun s => if p s then y else s) = l := by
  induction l with
  | nil => rfl
  | cons a t ih =>
    simp only [List.any_cons, Bool.or_eq_false_iff] at h
    simp [h.1, ih h.2]

/-- Either `replace_source` bailed out early (instruction untouched), or it
reached the final substitution loop, whose boolean result is "some operand
matched" and whose updated operand list is the conditional-replacement
map. -/
theorem replaceSource_cases (M : ReadportModel) (grp : Option M.State)
    (i : AluInstr) (old : Register) (newV : VirtualValue) :
    (replaceSource M grp i old newV).2.1 = i ∨
    ((replaceSource M grp i old newV).1 = replHit old i.src ∧
      (replaceSource M grp i old newV).2.1 =
        { i with src := replMap old newV i.src }) := by
  unfold replaceSource
  split_ifs <;> try exact Or.inl rfl
  all_goals cases htr : rsReadportTrial M grp i old newV <;> simp [htr]

/-! ## Claim theorems -/

/-- C2: whenever `replace_source(old, new)` returns false, the
instruction's source operand list is unchanged — every rejection path
returns before the substitution loop, and the substitution loop returns
false only when no operand matched, in which case the conditional
replacement is the identity. -/
theorem c2_replace_source_false_keeps_sources (M : ReadportModel)
    (grp : Option M.State) (i : AluInstr) (old : Register)
    (newV : VirtualValue)
    (h : (replaceSource M grp i old newV).1 = false) :
    (replaceSource M grp i old newV).2.1.src = i.src := by
  rcases replaceSource_cases M grp i old newV with heq | ⟨hb, heq⟩
  · rw [heq]
  · rw [heq]
    rw [hb] at h
    unfold replHit at h
    show replMap old newV i.src = i.src
    unfold replMap
    exact map_ite_eq_self_of_any_eq_false _ _ _ h

/-- Witness for C2: a rejected call (the old source is an array element)
leaves the operand list unchanged. -/
theorem c2_witness :
    (replaceSource trivialRPM Option.none movLitInstr regArr
        (VirtualValue.literal 2)).2.1.src = movLitInstr.src :=
  c2_replace_source_false_keeps_sources trivialRPM Option.none movLitInstr
    regArr (VirtualValue.literal 2) (by decide)

/-- C5: assuming `can_copy_propagate()`, `can_propagate_src()` is true
whenever source 0 is not a register, and otherwise agrees with the spec's
description (destination SSA, then fully-pinned / channel-pinned / free
case split). -/
theorem c5_can_propagate_src (i : AluInstr)
    (h : canCopyPropagate i = true) :
    (i.src0.asRegister = Option.none → canPropagateSrc i = true) ∧
    (∀ d srcReg, i.dest = Option.some d →
      i.src0.asRegister = Option.some srcReg →
      canPropagateSrc i = specPropagateSrcReg d srcReg) := by
  constructor
  · intro hn
    simp [canPropagateSrc, h, hn]
  · intro d srcReg hd hs
    simp only [canPropagateSrc, h, Bool.not_true, Bool.false_eq_true,
      if_false, hs, hd, specPropagateSrcReg]
    cases hssa : d.base.ssa <;> simp [hssa]

/-- Witness for C5: the literal-source move propagates freely, and the
register-source move agrees with the spec form at `R0.x`/`R1.x`. -/
theorem c5_witness :
    canPropagateSrc movLitInstr = true ∧
    canPropagateSrc movRegInstr = specPropagateSrcReg regR0x regR1x :=
  ⟨(c5_can_propagate_src movLitInstr (by decide)).1 (by decide),
   (c5_can_propagate_src movRegInstr (by decide)).2 regR0x regR1x
     (by decide) (by decide)⟩

/-- C6: assuming `can_copy_propagate()`, `can_propagate_dest()` is false
whenever source 0 is not a register, and otherwise agrees with the spec's
description from the source register's perspective. -/
theorem c6_can_propagate_dest (i : AluInstr)
    (h : canCopyPropagate i = true) :
    (i.src0.asRegister = Option.none → canPropagateDest i = false) ∧
    (∀ d srcReg, i.dest = Option.some d →
      i.src0.asRegister = Option.some srcReg →
      canPropagateDest i = specPropagateDestReg d srcReg) := by
  constructor
  · intro hn
    simp [canPropagateDest, h, hn]
  · intro d srcReg hd hs
    simp only [canPropagateDest, h, Bool.not_true, Bool.false_eq_true,
      if_false, hs, hd, specPropagateDestReg]
    cases hf : (srcReg.base.pin == Pin.fully) <;>
      cases hssa : srcReg.base.ssa <;> simp [hf, hssa]

/-- Witness for C6: the literal-source move cannot back-propagate, and the
register-source move agrees with the spec form at `R0.x`/`R1.x`. -/
theorem c6_witness :
    canPropagateDest movLitInstr = false ∧
    canPropagateDest movRegInstr = specPropagateDestReg regR0x regR1x :=
  ⟨(c6_can_propagate_dest movLitInstr (by decide)).1 (by decide),
   (c6_can_propagate_dest movRegInstr (by decide)).2 regR0x regR1x
     (by decide) (by decide)⟩

/-- C7: `do_ready()` is false whenever some `required_instr()` entry is
unscheduled, and true for an instruction with no sources, no destination,
no extra dependencies and no required instructions. -/
theorem c7_do_ready :
    (∀ ctx (i : AluInstr),
        (∃ e ∈ i.requiredInstrs, e.scheduled = false) →
        doReady ctx i = false) ∧
    (∀ ctx (i : AluInstr), i.src = [] → i.dest = Option.none →
        i.extraDeps = [] → i.requiredInstrs = [] →
        doReady ctx i = true) := by
  constructor
  · rintro ctx i ⟨e, he, hs⟩
    have hall : i.requiredInstrs.all (fun r => r.scheduled) = false := by
      rw [Bool.eq_false_iff]
      intro hc
      rw [List.all_eq_true] at hc
      have := hc e he
      rw [hs] at this
      exact Bool.false_ne_true this
    unfold doReady
    rw [hall]
    rfl
  · intro ctx i h1 h2 h3 h4
    unfold doReady
    rw [h1, h2, h3, h4]
    rfl

/-- Witness for C7: an instruction with one unscheduled required entry is
not ready; the empty instruction is ready. -/
theorem c7_witness :
    doReady emptyCtx needsInstr = false ∧ doReady emptyCtx emptyInstr = true :=
  ⟨c7_do_ready.1 emptyCtx needsInstr
     ⟨{ blockId := 0, index := 0, scheduled := false }, by decide, rfl⟩,
   c7_do_ready.2 emptyCtx emptyInstr rfl rfl rfl rfl⟩

/-- C8: the regular-opcode constructor succeeds only when the source count
equals `nsrc(opcode) * slot_count` (so every constructed instruction
satisfies that equation), and fails whenever the counts differ. -/
theorem c8_constructor_arity :
    (∀ op dest src fl slots a,
        mkAluInstrChecked op dest src fl slots = Option.some a →
        a.src.length = aluNsrc a.opcode * a.aluSlots) ∧
    (∀ op dest src fl slots,
        src.length ≠ aluNsrc op * slots →
        mkAluInstrChecked op dest src fl slots = Option.none) := by
  constructor
  · intro op dest src fl slots a h
    unfold mkAluInstrChecked at h
    split_ifs at h with h1 h2
    cases h
    simpa [mkAluInstr] using h1
  · intro op dest src fl slots h
    unfold mkAluInstrChecked
    split_ifs with h1 h2 <;> first | rfl | exact absurd h1 h

/-- Witness for C8: the two-source `ADD` with one slot constructs and
carries the arity invariant; with a wrong source count construction
fails. -/
theorem c8_witness :
    ((mkAluInstrChecked .op2_add (Option.some regR0x)
        [VirtualValue.reg regR1x, VirtualValue.reg regR2x] {} 1).getD
      {}).src.length =
      aluNsrc ((mkAluInstrChecked .op2_add (Option.some regR0x)
        [VirtualValue.reg regR1x, VirtualValue.reg regR2x] {} 1).getD
          {}).opcode *
      ((mkAluInstrChecked .op2_add (Option.some regR0x)
        [VirtualValue.reg regR1x, VirtualValue.reg regR2x] {} 1).getD
          {}).aluSlots ∧
    mkAluInstrChecked .op2_add (Option.some regR0x)
        [VirtualValue.reg regR1x] {} 1 = Option.none :=
  ⟨c8_constructor_arity.1 .op2_add (Option.some regR0x)
      [VirtualValue.reg regR1x, VirtualValue.reg regR2x] {} 1 _ rfl,
   c8_constructor_arity.2 .op2_add (Option.some regR0x)
      [VirtualValue.reg regR1x] {} 1 (by decide)⟩

/-- C10: both LDS constructors always succeed for every opcode and source
list: they set the is-LDS flag, keep the supplied sources (the
address-based one pushes the address first, then the optional operands),
never check the source count against the LDS opcode table, and never
assert a write-flag/destination relation (the supplied write flag is kept
as-is and no destination is required). -/
theorem c10_lds_constructors :
    (∀ op src0v src1v address,
        (mkLdsAddr op src0v src1v address).flags.is_lds = true ∧
        (mkLdsAddr op src0v src1v address).src =
          address ::
            (match src0v with
             | Option.some s0 =>
               s0 :: (match src1v with
                      | Option.some s1 => [s1]
                      | Option.none => [])
             | Option.none => []) ∧
        (mkLdsAddr op src0v src1v address).dest = Option.none) ∧
    (∀ op srcs fl,
        (mkLdsRaw op srcs fl).flags.is_lds = true ∧
        (mkLdsRaw op srcs fl).src = srcs ∧
        (mkLdsRaw op srcs fl).dest = Option.none ∧
        (mkLdsRaw op srcs fl).flags.write = fl.write) :=
  ⟨fun _ _ _ _ => ⟨rfl, rfl, rfl⟩, fun _ _ _ => ⟨rfl, rfl, rfl, rfl⟩⟩

/-- A slot instruction built by `split` is single-slot. -/
theorem splitOne_aluSlots (i : AluInstr) (d : Register) (s : Nat) :
    (splitOne i d s).aluSlots = 1 := rfl

/-- The operand list of the slot-`s` instruction built by `split` is the
`s`-th `nsrc`-sized chunk of the original operand list (pin-updated). -/
theorem splitOne_src (i : AluInstr) (d : Register) (s : Nat) :
    (splitOne i d s).src =
      ((i.src.drop (s * aluNsrc i.opcode)).take (aluNsrc i.opcode)).map
        splitSrcVal := rfl

/-- The slot-`s` instruction built by `split` carries the write flag
exactly when `s` is the original destination's channel. -/
theorem splitOne_write (i : AluInstr) (d : Register) (s : Nat) :
    (splitOne i d s).flags.write = decide (s = d.base.chan) := by
  simp only [splitOne, mkAluInstr]
  split_ifs <;> simp_all

/-- No instruction built by `split` carries the last-instruction flag:
the split loop copies only neg/abs/clamp and sets write. -/
theorem splitOne_last (i : AluInstr) (d : Register) (s : Nat) :
    (splitOne i d s).flags.last_instr = false := by
  simp only [splitOne, mkAluInstr]
  split_ifs <;> rfl

/-- C3: `split()` on a 4-slot instruction yields a group of exactly 4
single-slot instructions; slot `s` receives sources
`s*nsrc .. s*nsrc + nsrc - 1` (with the split's source pinning applied to
the by-value register copies); and exactly one instruction — the one whose
slot equals the destination's channel — carries the write flag. -/
theorem c3_split_four_slots (i : AluInstr) (d : Register)
    (h4 : i.aluSlots = 4) (hd : i.dest = Option.some d)
    (hc : d.base.chan < 4) :
    ∃ g, split i = Option.some g ∧
      g.length = 4 ∧
      (∀ a ∈ g, a.aluSlots = 1) ∧
      (∀ s, (hs : s < g.length) →
        (g.get ⟨s, hs⟩).src =
          ((i.src.drop (s * aluNsrc i.opcode)).take
            (aluNsrc i.opcode)).map splitSrcVal) ∧
      g.countP (fun a => a.flags.write) = 1 ∧
      (∀ s, (hs : s < g.length) →
        ((g.get ⟨s, hs⟩).flags.write = true ↔ s = d.base.chan)) := by
  have hne : i.aluSlots ≠ 1 := by omega
  refine ⟨(List.range i.aluSlots).map (splitOne i d), ?_, ?_, ?_, ?_, ?_, ?_⟩
  · unfold split
    rw [if_neg hne, hd]
  · rw [h4]
    rfl
  · intro a ha
    rw [List.mem_map] at ha
    obtain ⟨s, _, rfl⟩ := ha
    exact splitOne_aluSlots i d s
  · intro s hs
    rw [List.get_eq_getElem, List.getElem_map, List.getElem_range]
    exact splitOne_src i d s
  · rw [h4]
    have hlist : (List.range 4).map (splitOne i d) =
        [splitOne i d 0, splitOne i d 1, splitOne i d 2, splitOne i d 3] :=
      rfl
    rw [hlist]
    simp only [List.countP_cons, List.countP_nil, splitOne_write]
    have : d.base.chan = 0 ∨ d.base.chan = 1 ∨ d.base.chan = 2 ∨
        d.base.chan = 3 := by omega
    rcases this with h | h | h | h <;> simp [h]
  · intro s hs
    rw [List.get_eq_getElem, List.getElem_map, List.getElem_range,
      splitOne_write]
    simp

/-- Witness for C3 at a concrete 4-slot instruction. -/
theorem c3_witness :
    ∃ g, split c3i = Option.some g ∧
      g.length = 4 ∧
      (∀ a ∈ g, a.aluSlots = 1) ∧
      (∀ s, (hs : s < g.length) →
        (g.get ⟨s, hs⟩).src =
          ((c3i.src.drop (s * aluNsrc c3i.opcode)).take
            (aluNsrc c3i.opcode)).map splitSrcVal) ∧
      g.countP (fun a => a.flags.write) = 1 ∧
      (∀ s, (hs : s < g.length) →
        ((g.get ⟨s, hs⟩).flags.write = true ↔ s = regR0x.base.chan)) :=
  c3_split_four_slots c3i regR0x (by decide) (by decide) (by decide)

/-- Counterexample to C4 as stated: splitting a 2-slot instruction whose
last-instruction flag is set and whose destination channel is 0 yields a
group in which *no* instruction — in particular not the slot-0 one —
carries the last-instruction flag. -/
theorem c4_counterexample :
    c4i.aluSlots = 2 ∧ c4i.flags.last_instr = true ∧
    c4i.dest = Option.some regR0x ∧ regR0x.base.chan = 0 ∧
    (split c4i).map (fun g => g.map (fun a => a.flags.last_instr)) =
      Option.some [false, false] := by
  decide

/-- C4 (amended): `split()` never propagates the last-instruction flag —
every instruction of the resulting group has it clear. -/
theorem c4_split_drops_last (i : AluInstr) (d : Register)
    (h1 : 1 < i.aluSlots) (hd : i.dest = Option.some d)
    (_hl : i.flags.last_instr = true) :
    ∃ g, split i = Option.some g ∧
      ∀ a ∈ g, a.flags.last_instr = false := by
  have hne : i.aluSlots ≠ 1 := by omega
  refine ⟨(List.range i.aluSlots).map (splitOne i d), ?_, ?_⟩
  · unfold split
    rw [if_neg hne, hd]
  · intro a ha
    rw [List.mem_map] at ha
    obtain ⟨s, _, rfl⟩ := ha
    exact splitOne_last i d s

/-- Witness for the amended C4 at the concrete 2-slot instruction. -/
theorem c4_witness :
    ∃ g, split c4i = Option.some g ∧
      ∀ a ∈ g, a.flags.last_instr = false :=
  c4_split_drops_last c4i regR0x (by decide) (by decide) (by decide)

/-- A guarded `filterMap` is a filter followed by a map. -/
theorem filterMap_ite {α β : Type} (l : List α) (p : α → Bool) (b : α → β) :
    l.filterMap (fun x => if p x then Option.some (b x) else Option.none) =
      (l.filter p).map b := by
  induction l with
  | nil => rfl
  | cons a t ih =>
    by_cases h : p a <;> simp [List.filterMap_cons, List.filter_cons, h, ih]

/-- Setting the last-instruction flag on the final element preserves the
length. -/
theorem setLastOnFinal_length (l : List AluInstr) :
    (setLastOnFinal l).length = l.length := by
  induction l with
  | nil => rfl
  | cons a t ih =>
    cases t with
    | nil => rfl
    | cons b t2 =>
      show (a :: setLastOnFinal (b :: t2)).length = (a :: b :: t2).length
      simp only [List.length_cons, ih]

/-- Any property insensitive to the last-instruction flag survives
`setLastOnFinal`. -/
theorem setLastOnFinal_preserves (p : AluInstr → Bool)
    (hp : ∀ a, p { a with
      flags := { a.flags with last_instr := true } } = p a)
    (l : List AluInstr) (h : ∀ a ∈ l, p a = true) :
    ∀ a ∈ setLastOnFinal l, p a = true := by
  induction l with
  | nil => intro a ha; cases ha
  | cons a t ih =>
    cases t with
    | nil =>
      intro x hx
      simp only [setLastOnFinal, List.mem_singleton] at hx
      subst hx
      rw [hp]
      exact h a (List.mem_singleton.mpr rfl)
    | cons b t2 =>
      intro x hx
      have hx2 : x = a ∨ x ∈ setLastOnFinal (b :: t2) := List.mem_cons.mp hx
      rcases hx2 with rfl | hx3
      · exact h x (List.mem_cons_self _ _)
      · exact ih (fun y hy => h y (List.mem_cons_of_mem _ hy)) x hx3

/-- After `setLastOnFinal`, a list whose elements all had the
last-instruction flag clear carries it exactly on the final position. -/
theorem setLastOnFinal_last (l : List AluInstr)
    (h : ∀ a ∈ l, a.flags.last_instr = false) (j : Nat)
    (h2 : j < l.length) :
    ((setLastOnFinal l).getD j {}).flags.last_instr =
      decide (j = l.length - 1) := by
  induction l generalizing j with
  | nil => simp at h2
  | cons a t ih =>
    cases t with
    | nil =>
      have hj0 : j = 0 := by
        simp only [List.length_cons, List.length_nil] at h2
        omega
      subst hj0
      rfl
    | cons b t2 =>
      cases j with
      | zero =>
        have ha := h a (List.mem_cons_self _ _)
        show ((a :: setLastOnFinal (b :: t2)).getD 0 {}).flags.last_instr = _
        rw [List.getD_cons_zero, ha]
        have hne : ¬((0 : Nat) = (a :: b :: t2).length - 1) := by
          simp only [List.length_cons]
          omega
        simp [hne]
      | succ k =>
        show ((a :: setLastOnFinal (b :: t2)).getD (k + 1) {}).flags.last_instr
          = _
        rw [List.getD_cons_succ]
        rw [ih (fun x hx => h x (List.mem_cons_of_mem _ hx)) k
          (by simp only [List.length_cons] at h2 ⊢; omega)]
        exact decide_eq_decide.mpr (by simp only [List.length_cons]; omega)

/-- The per-component flags built by `emit_alu_op2`: the second source's
combined negate, its abs, the write flag; the last-instruction flag is not
set here. -/
theorem emitOp2One_flags (opcode : EAluOp) (s0 s1 : NirAluSrc)
    (n sat : Bool) (dof : Nat → Register) (k : Nat) :
    (emitOp2One opcode s0 s1 n sat dof k).flags.src1_neg = n ∧
    (emitOp2One opcode s0 s1 n sat dof k).flags.src1_abs = s1.abs ∧
    (emitOp2One opcode s0 s1 n sat dof k).flags.write = true ∧
    (emitOp2One opcode s0 s1 n sat dof k).flags.last_instr = false :=
  ⟨rfl, rfl, rfl, rfl⟩

/-- The C9 element properties, established once over the prepared list. -/
theorem setLastOnFinal_c9_props (L : List AluInstr)
    (h : ∀ a ∈ L, a.flags.src1_neg = true ∧ a.flags.src1_abs = true ∧
      a.flags.write = true ∧ a.flags.last_instr = false)
    (j : Nat) (hj : j < L.length) :
    ((setLastOnFinal L).getD j {}).flags.src1_neg = true ∧
    ((setLastOnFinal L).getD j {}).flags.src1_abs = true ∧
    ((setLastOnFinal L).getD j {}).flags.write = true ∧
    (((setLastOnFinal L).getD j {}).flags.last_instr = true ↔
      j = L.length - 1) := by
  have hj2 : j < (setLastOnFinal L).length := by
    rw [setLastOnFinal_length]
    exact hj
  have hmem : (setLastOnFinal L).getD j {} ∈ setLastOnFinal L := by
    rw [List.getD_eq_getElem _ _ hj2]
    exact List.getElem_mem hj2
  refine ⟨?_, ?_, ?_, ?_⟩
  · exact setLastOnFinal_preserves (fun a => a.flags.src1_neg)
      (fun a => rfl) L (fun a ha => (h a ha).1) _ hmem
  · exact setLastOnFinal_preserves (fun a => a.flags.src1_abs)
      (fun a => rfl) L (fun a ha => (h a ha).2.1) _ hmem
  · exact setLastOnFinal_preserves (fun a => a.flags.write)
      (fun a => rfl) L (fun a ha => (h a ha).2.2.1) _ hmem
  · rw [setLastOnFinal_last L (fun a ha => (h a ha).2.2.2) j hj]
    simp

/-- C9: lowering a two-source nir operation (`fadd` maps to `op2_add` with
default options) whose second source carries both negate and abs yields
one instruction per write-mask-enabled destination component, each with
`alu_src1_neg`, `alu_src1_abs` and the write flag set, and with
`alu_last_instr` exactly on the final emitted instruction. -/
theorem c9_emit_alu_op2_neg_abs (alu : NirAluOp2)
    (hneg : alu.srcB.negate = true) (habs : alu.srcB.abs = true) :
    (emitAluOp2 alu .op2_add {}).length =
      ((List.range alu.numComponents).filter
        (fun k => alu.writeMask.testBit k)).length ∧
    ∀ j, j < (emitAluOp2 alu .op2_add {}).length →
      ((emitAluOp2 alu .op2_add {}).getD j {}).flags.src1_neg = true ∧
      ((emitAluOp2 alu .op2_add {}).getD j {}).flags.src1_abs = true ∧
      ((emitAluOp2 alu .op2_add {}).getD j {}).flags.write = true ∧
      (((emitAluOp2 alu .op2_add {}).getD j {}).flags.last_instr = true ↔
        j = (emitAluOp2 alu .op2_add {}).length - 1) := by
  have hemit : emitAluOp2 alu .op2_add {} =
      setLastOnFinal
        (((List.range alu.numComponents).filter
            (fun k => alu.writeMask.testBit k)).map
          (emitOp2One .op2_add alu.srcA alu.srcB true alu.saturate
            alu.destOf)) := by
    show setLastOnFinal ((List.range alu.numComponents).filterMap
      (fun k => if alu.writeMask.testBit k then
        Option.some (emitOp2One .op2_add alu.srcA alu.srcB
          (xor false alu.srcB.negate) alu.saturate alu.destOf k)
        else Option.none)) = _
    rw [show xor false alu.srcB.negate = alu.srcB.negate from
      Bool.false_xor _, hneg, filterMap_ite]
  have hflags : ∀ a ∈ ((List.range alu.numComponents).filter
      (fun k => alu.writeMask.testBit k)).map
        (emitOp2One .op2_add alu.srcA alu.srcB true alu.saturate
          alu.destOf),
      a.flags.src1_neg = true ∧ a.flags.src1_abs = true ∧
      a.flags.write = true ∧ a.flags.last_instr = false := by
    intro a ha
    rw [List.mem_map] at ha
    obtain ⟨k, _, rfl⟩ := ha
    have h := emitOp2One_flags .op2_add alu.srcA alu.srcB true alu.saturate
      alu.destOf k
    exact ⟨h.1, by rw [h.2.1, habs], h.2.2.1, h.2.2.2⟩
  have hlen : (emitAluOp2 alu .op2_add {}).length =
      ((List.range alu.numComponents).filter
        (fun k => alu.writeMask.testBit k)).length := by
    rw [hemit, setLastOnFinal_length, List.length_map]
  refine ⟨hlen, ?_⟩
  intro j hj
  rw [hlen] at hj
  have hprops := setLastOnFinal_c9_props _ hflags j
    (by rw [List.length_map]; exact hj)
  rw [hemit, setLastOnFinal_length]
  exact hprops

/-- Witness for C9 at the concrete two-component operation. -/
theorem c9_witness :
    (emitAluOp2 c9alu .op2_add {}).length =
      ((List.range c9alu.numComponents).filter
        (fun k => c9alu.writeMask.testBit k)).length ∧
    ∀ j, j < (emitAluOp2 c9alu .op2_add {}).length →
      ((emitAluOp2 c9alu .op2_add {}).getD j {}).flags.src1_neg = true ∧
      ((emitAluOp2 c9alu .op2_add {}).getD j {}).flags.src1_abs = true ∧
      ((emitAluOp2 c9alu .op2_add {}).getD j {}).flags.write = true ∧
      (((emitAluOp2 c9alu .op2_add {}).getD j {}).flags.last_instr = true ↔
        j = (emitAluOp2 c9alu .op2_add {}).length - 1) :=
  c9_emit_alu_op2_neg_abs c9alu rfl rfl

/-! ## Round-trip development: parsing the printed source tokens

The slot-group lemmas below compute `parseSrcGroup` on the tokens printed
for one slot, per arity (1, 2 or 3 sources per slot) and separately for
slot 0 (where decorations insert flags) and the later slots (where
decorations only assert consistency). -/

theorem gl0_n1 (i : AluInstr) (rest : List Tok) (acc : List VirtualValue)
    (hn1 : i.flags.src1_neg = false) (hn2 : i.flags.src2_neg = false)
    (ha1 : i.flags.src1_abs = false) :
    parseSrcGroup true 0 1 (groupToks i 1 0 ++ rest)
        { dst_clamp := i.flags.dst_clamp } acc =
      Option.some (rest, parsedBase i.flags, acc ++ grpVals i 1 0) := by
  have hg : groupToks i 1 0 ++ rest =
      Tok.srcTok i.flags.src0_neg i.flags.src0_abs
        (i.src.getD 0 (VirtualValue.literal 0)) :: rest := rfl
  have hv : grpVals i 1 0 = [i.src.getD 0 (VirtualValue.literal 0)] := rfl
  rw [hg, hv]
  cases h0 : i.flags.src0_neg <;> cases h0a : i.flags.src0_abs <;>
    simp [parseSrcGroup, insNeg, insAbs, parsedBase, AluFlags.mk.injEq,
      h0, h0a, hn1, hn2, ha1]

theorem gl0_n2 (i : AluInstr) (rest : List Tok) (acc : List VirtualValue)
    (hn2 : i.flags.src2_neg = false) :
    parseSrcGroup true 0 2 (groupToks i 2 0 ++ rest)
        { dst_clamp := i.flags.dst_clamp } acc =
      Option.some (rest, parsedBase i.flags, acc ++ grpVals i 2 0) := by
  have hg : groupToks i 2 0 ++ rest =
      Tok.srcTok i.flags.src0_neg i.flags.src0_abs
        (i.src.getD 0 (VirtualValue.literal 0)) ::
      Tok.srcTok i.flags.src1_neg i.flags.src1_abs
        (i.src.getD 1 (VirtualValue.literal 0)) :: rest := rfl
  have hv : grpVals i 2 0 = [i.src.getD 0 (VirtualValue.literal 0),
      i.src.getD 1 (VirtualValue.literal 0)] := rfl
  rw [hg, hv]
  cases h0 : i.flags.src0_neg <;> cases h1 : i.flags.src1_neg <;>
    cases h0a : i.flags.src0_abs <;> cases h1a : i.flags.src1_abs <;>
    simp [parseSrcGroup, insNeg, insAbs, parsedBase, AluFlags.mk.injEq,
      h0, h1, h0a, h1a, hn2]

theorem gl0_n3 (i : AluInstr) (rest : List Tok) (acc : List VirtualValue) :
    parseSrcGroup true 0 3 (groupToks i 3 0 ++ rest)
        { dst_clamp := i.flags.dst_clamp } acc =
      Option.some (rest, parsedBase i.flags, acc ++ grpVals i 3 0) := by
  have hg : groupToks i 3 0 ++ rest =
      Tok.srcTok i.flags.src0_neg i.flags.src0_abs
        (i.src.getD 0 (VirtualValue.literal 0)) ::
      Tok.srcTok i.flags.src1_neg i.flags.src1_abs
        (i.src.getD 1 (VirtualValue.literal 0)) ::
      Tok.srcTok i.flags.src2_neg false
        (i.src.getD 2 (VirtualValue.literal 0)) :: rest := rfl
  have hv : grpVals i 3 0 = [i.src.getD 0 (VirtualValue.literal 0),
      i.src.getD 1 (VirtualValue.literal 0),
      i.src.getD 2 (VirtualValue.literal 0)] := rfl
  rw [hg, hv]
  cases h0 : i.flags.src0_neg <;> cases h1 : i.flags.src1_neg <;>
    cases h2 : i.flags.src2_neg <;> cases h0a : i.flags.src0_abs <;>
    cases h1a : i.flags.src1_abs <;>
    simp [parseSrcGroup, insNeg, insAbs, parsedBase, AluFlags.mk.injEq,
      h0, h1, h2, h0a, h1a]

theorem gls_n1 (i : AluInstr) (s : Nat) (rest : List Tok)
    (acc : List VirtualValue) :
    parseSrcGroup false 0 1 (groupToks i 1 s ++ rest)
        (parsedBase i.flags) acc =
      Option.some (rest, parsedBase i.flags, acc ++ grpVals i 1 s) := by
  have hg : groupToks i 1 s ++ rest =
      Tok.srcTok i.flags.src0_neg
        (decide (s * 1 + 0 < 2) && i.flags.src0_abs)
        (i.src.getD (s * 1 + 0) (VirtualValue.literal 0)) :: rest := rfl
  have hv : grpVals i 1 s =
      [i.src.getD (s * 1 + 0) (VirtualValue.literal 0)] := rfl
  rw [hg, hv]
  cases hd : decide (s * 1 + 0 < 2) <;> cases h0 : i.flags.src0_neg <;>
    cases h0a : i.flags.src0_abs <;>
    simp [parseSrcGroup, negFlagOf, absFlagOf, parsedBase, h0, h0a]

theorem gls_n2 (i : AluInstr) (s : Nat) (hs : 1 ≤ s) (rest : List Tok)
    (acc : List VirtualValue) :
    parseSrcGroup false 0 2 (groupToks i 2 s ++ rest)
        (parsedBase i.flags) acc =
      Option.some (rest, parsedBase i.flags, acc ++ grpVals i 2 s) := by
  have hg : groupToks i 2 s ++ rest =
      Tok.srcTok i.flags.src0_neg
        (decide (s * 2 + 0 < 2) && i.flags.src0_abs)
        (i.src.getD (s * 2 + 0) (VirtualValue.literal 0)) ::
      Tok.srcTok i.flags.src1_neg
        (decide (s * 2 + 1 < 2) && i.flags.src1_abs)
        (i.src.getD (s * 2 + 1) (VirtualValue.literal 0)) :: rest := rfl
  have hv : grpVals i 2 s = [i.src.getD (s * 2 + 0) (VirtualValue.literal 0),
      i.src.getD (s * 2 + 1) (VirtualValue.literal 0)] := rfl
  have hd0 : decide (s * 2 + 0 < 2) = false := by
    rw [decide_eq_false_iff_not]
    omega
  have hd1 : decide (s * 2 + 1 < 2) = false := by
    rw [decide_eq_false_iff_not]
    omega
  rw [hg, hv, hd0, hd1]
  cases h0 : i.flags.src0_neg <;> cases h1 : i.flags.src1_neg <;>
    simp [parseSrcGroup, negFlagOf, parsedBase, h0, h1]

theorem gls_n3 (i : AluInstr) (s : Nat) (hs : 1 ≤ s) (rest : List Tok)
    (acc : List VirtualValue) :
    parseSrcGroup false 0 3 (groupToks i 3 s ++ rest)
        (parsedBase i.flags) acc =
      Option.some (rest, parsedBase i.flags, acc ++ grpVals i 3 s) := by
  have hg : groupToks i 3 s ++ rest =
      Tok.srcTok i.flags.src0_neg
        (decide (s * 3 + 0 < 2) && i.flags.src0_abs)
        (i.src.getD (s * 3 + 0) (VirtualValue.literal 0)) ::
      Tok.srcTok i.flags.src1_neg
        (decide (s * 3 + 1 < 2) && i.flags.src1_abs)
        (i.src.getD (s * 3 + 1) (VirtualValue.literal 0)) ::
      Tok.srcTok i.flags.src2_neg
        (decide (s * 3 + 2 < 2) && false)
        (i.src.getD (s * 3 + 2) (VirtualValue.literal 0)) :: rest := rfl
  have hv : grpVals i 3 s = [i.src.getD (s * 3 + 0) (VirtualValue.literal 0),
      i.src.getD (s * 3 + 1) (VirtualValue.literal 0),
      i.src.getD (s * 3 + 2) (VirtualValue.literal 0)] := rfl
  have hd0 : decide (s * 3 + 0 < 2) = false := by
    rw [decide_eq_false_iff_not]
    omega
  have hd1 : decide (s * 3 + 1 < 2) = false := by
    rw [decide_eq_false_iff_not]
    omega
  rw [hg, hv, hd0, hd1]
  cases h0 : i.flags.src0_neg <;> cases h1 : i.flags.src1_neg <;>
    cases h2 : i.flags.src2_neg <;>
    simp [parseSrcGroup, negFlagOf, parsedBase, h0, h1, h2]

/-- The slot do-while loop continues on a `+` separator. -/
theorem parseSlotsLoop_step_plus (nsrc f : Nat) (sep : Tok)
    (toks : List Tok) (fl : AluFlags) (acc : List VirtualValue)
    (slots : Nat) (x : List Tok) (fl2 : AluFlags)
    (acc2 : List VirtualValue)
    (h : parseSrcGroup (slots == 0) 0 nsrc toks fl acc =
      Option.some (Tok.plus :: x, fl2, acc2)) :
    parseSlotsLoop nsrc (f + 1) (sep :: toks) fl acc slots =
      parseSlotsLoop nsrc f (Tok.plus :: x) fl2 acc2 (slots + 1) := by
  show (match parseSrcGroup (slots == 0) 0 nsrc toks fl acc with
        | Option.none => Option.none
        | Option.some (r2, g2, a2) =>
          match r2 with
          | Tok.plus :: _ => parseSlotsLoop nsrc f r2 g2 a2 (slots + 1)
          | _ => Option.some (r2, g2, a2, slots + 1)) = _
  rw [h]

/-- The slot do-while loop stops when the remaining tokens do not start
with `+`. -/
theorem parseSlotsLoop_step_stop (nsrc f : Nat) (sep : Tok)
    (toks : List Tok) (fl : AluFlags) (acc : List VirtualValue)
    (slots : Nat) (rest2 : List Tok) (fl2 : AluFlags)
    (acc2 : List VirtualValue)
    (h : parseSrcGroup (slots == 0) 0 nsrc toks fl acc =
      Option.some (rest2, fl2, acc2))
    (hnp : notPlusHead rest2 = true) :
    parseSlotsLoop nsrc (f + 1) (sep :: toks) fl acc slots =
      Option.some (rest2, fl2, acc2, slots + 1) := by
  show (match parseSrcGroup (slots == 0) 0 nsrc toks fl acc with
        | Option.none => Option.none
        | Option.some (r2, g2, a2) =>
          match r2 with
          | Tok.plus :: _ => parseSlotsLoop nsrc f r2 g2 a2 (slots + 1)
          | _ => Option.some (r2, g2, a2, slots + 1)) = _
  rw [h]
  rcases rest2 with _ | ⟨hd, t⟩
  · rfl
  · cases hd <;> first | rfl | (simp [notPlusHead] at hnp)

/-- The slot loop on the printed source tokens: starting at slot `s` with
`rem + 1` printed slot groups remaining, the loop accumulates exactly the
printed operands, ends in the parsed flag state `F0`, counts the slots,
and stops at the trailing tokens.  The two group-parsing hypotheses are
provided per arity by the `gl0_*`/`gls_*` lemmas. -/
theorem parse_slots_print (i : AluInstr) (nsrc : Nat) (initF F0 : AluFlags)
    (hgl0 : ∀ rest acc,
      parseSrcGroup true 0 nsrc (groupToks i nsrc 0 ++ rest) initF acc =
        Option.some (rest, F0, acc ++ grpVals i nsrc 0))
    (hgls : ∀ s rest acc, 1 ≤ s →
      parseSrcGroup false 0 nsrc (groupToks i nsrc s ++ rest) F0 acc =
        Option.some (rest, F0, acc ++ grpVals i nsrc s)) :
    ∀ rem fuel s sep fl acc tr, rem + 1 ≤ fuel →
      notPlusHead tr = true →
      ((s = 0 ∧ fl = initF) ∨ (1 ≤ s ∧ fl = F0)) →
      parseSlotsLoop nsrc fuel
          (sep :: (groupToks i nsrc s ++
            (printSrcToksFrom i nsrc (s + 1) rem ++ tr)))
          fl acc s =
        Option.some (tr, F0, acc ++ valsFrom i nsrc s (rem + 1),
          s + (rem + 1)) := by
  intro rem
  induction rem with
  | zero =>
    intro fuel s sep fl acc tr hfuel htr hcond
    obtain ⟨f, rfl⟩ : ∃ f, fuel = f + 1 := ⟨fuel - 1, by omega⟩
    rw [show printSrcToksFrom i nsrc (s + 1) 0 = [] from rfl,
      List.nil_append]
    have hgrp : parseSrcGroup (s == 0) 0 nsrc (groupToks i nsrc s ++ tr)
        fl acc = Option.some (tr, F0, acc ++ grpVals i nsrc s) := by
      rcases hcond with ⟨rfl, rfl⟩ | ⟨hs1, rfl⟩
      · exact hgl0 tr acc
      · rw [show (s == 0) = false from beq_eq_false_iff_ne.mpr (by omega)]
        exact hgls s tr acc hs1
    rw [parseSlotsLoop_step_stop nsrc f sep _ fl acc s _ _ _ hgrp htr]
    simp [valsFrom]
  | succ rem ih =>
    intro fuel s sep fl acc tr hfuel htr hcond
    obtain ⟨f, rfl⟩ : ∃ f, fuel = f + 1 := ⟨fuel - 1, by omega⟩
    have hp : printSrcToksFrom i nsrc (s + 1) (rem + 1) =
        Tok.plus :: (groupToks i nsrc (s + 1) ++
          printSrcToksFrom i nsrc (s + 1 + 1) rem) := by
      show ((if 0 < s + 1 then [Tok.plus] else []) ++
          groupToks i nsrc (s + 1)) ++
            printSrcToksFrom i nsrc (s + 1 + 1) rem = _
      rw [if_pos (Nat.succ_pos s)]
      rfl
    rw [hp]
    simp only [List.cons_append, List.append_assoc]
    have hgrp : parseSrcGroup (s == 0) 0 nsrc
        (groupToks i nsrc s ++
          (Tok.plus :: (groupToks i nsrc (s + 1) ++
            (printSrcToksFrom i nsrc (s + 1 + 1) rem ++ tr))))
        fl acc =
        Option.some (Tok.plus :: (groupToks i nsrc (s + 1) ++
            (printSrcToksFrom i nsrc (s + 1 + 1) rem ++ tr)),
          F0, acc ++ grpVals i nsrc s) := by
      rcases hcond with ⟨rfl, rfl⟩ | ⟨hs1, rfl⟩
      · exact hgl0 _ acc
      · rw [show (s == 0) = false from beq_eq_false_iff_ne.mpr (by omega)]
        exact hgls s _ acc hs1
    rw [parseSlotsLoop_step_plus nsrc f sep _ fl acc s _ _ _ hgrp]
    rw [ih f (s + 1) Tok.plus F0 (acc ++ grpVals i nsrc s) tr
      (by omega) htr (Or.inr ⟨Nat.le_add_left 1 s, rfl⟩)]
    have hlist : (acc ++ grpVals i nsrc s) ++
        valsFrom i nsrc (s + 1) (rem + 1) =
        acc ++ valsFrom i nsrc s (rem + 1 + 1) := by
      rw [show valsFrom i nsrc s (rem + 1 + 1) =
        grpVals i nsrc s ++ valsFrom i nsrc (s + 1) (rem + 1) from rfl]
      rw [List.append_assoc]
    have hnat : (s + 1) + (rem + 1) = s + (rem + 1 + 1) := by omega
    rw [hlist, hnat]

/-- The printed destination token is never the `CLAMP` keyword. -/
theorem destTok_ne_clamp (i : AluInstr) : destTok i ≠ Tok.clamp := by
  unfold destTok
  cases i.dest with
  | none => simp
  | some dd => split_ifs <;> simp

/-- `parseHeader` on the printed head of a non-LDS instruction: no `LDS`
keyword, the opcode token, a flag set holding only the printed clamp, the
destination token, and the rest of the stream. -/
theorem parseHeader_print (i : AluInstr) (rest : List Tok)
    (hlds : i.flags.is_lds = false) :
    parseHeader (hdrToks i ++ rest) =
      Option.some (false, Tok.opname i.opcode,
        { dst_clamp := i.flags.dst_clamp }, destTok i, rest) := by
  have hh : hdrToks i = Tok.opname i.opcode ::
      ((if i.flags.dst_clamp then [Tok.clamp] else []) ++ [destTok i]) := by
    simp [hdrToks, hlds]
  rw [hh]
  cases hcl : i.flags.dst_clamp <;>
    simp [parseHeader, hcl, destTok_ne_clamp i]

/-- Evaluation of `from_string` through its phases, given the result of
each phase on the current stream. -/
theorem fromTokens_eval (toks : List Tok) (op : EAluOp) (fl0 : AluFlags)
    (dTok : Tok) (t rest2 : List Tok) (fl1 fl2 : AluFlags)
    (sources : List VirtualValue) (slots : Nat) (bs : AluBankSwizzle)
    (cf : ECFAluOpCode) (dest : Option Register) (a : AluInstr)
    (hh : parseHeader toks =
      Option.some (false, Tok.opname op, fl0, dTok, Tok.colon :: t))
    (hsl : parseSlotsLoop (aluNsrc op) ((Tok.colon :: t).length + 1)
      (Tok.colon :: t) fl0 [] 0 = Option.some (rest2, fl1, sources, slots))
    (htr : parseTrailing rest2 fl1 .alu_vec_unknown .cf_alu =
      Option.some (fl2, bs, cf))
    (hdt : destFromTok dTok = Option.some dest)
    (hmk : mkAluInstrChecked op dest sources fl2 slots = Option.some a) :
    fromTokens toks =
      Option.some { a with bankSwizzle := bs, cfType := cf } := by
  have e1 : fromTokens toks =
      fromTokensBody false (Tok.opname op) fl0 dTok (Tok.colon :: t) := by
    unfold fromTokens
    rw [hh]
  have e3 : fromTokensSlots (Sum.inl op) (aluNsrc op) dTok fl0
      (Tok.colon :: t) =
      fromTokensTrail (Sum.inl op) dTok rest2 fl1 sources slots := by
    unfold fromTokensSlots
    rw [hsl]
  have e4 : fromTokensTrail (Sum.inl op) dTok rest2 fl1 sources slots =
      fromTokensFinish (Sum.inl op) dTok sources fl2 slots bs cf := by
    unfold fromTokensTrail
    rw [htr]
  have e5 : fromTokensFinish (Sum.inl op) dTok sources fl2 slots bs cf =
      fromTokensMk op dest sources fl2 slots bs cf := by
    unfold fromTokensFinish
    rw [hdt]
  have e6 : fromTokensMk op dest sources fl2 slots bs cf =
      Option.some { a with bankSwizzle := bs, cfType := cf } := by
    unfold fromTokensMk
    rw [hmk]
  exact e1.trans (e3.trans (e4.trans (e5.trans e6)))

/-- Replacing the W/L/E/P fields of a flag set by their current values is
the identity. -/
theorem flags_update_eta (F : AluFlags) (w l e p : Bool)
    (hw : F.write = w) (hl : F.last_instr = l) (he : F.update_exec = e)
    (hp : F.update_pred = p) :
    ({ F with
        write := w, last_instr := l, update_exec := e,
        update_pred := p } : AluFlags) = F := by
  subst hw
  subst hl
  subst he
  subst hp
  rfl

/-- `parseTrailing` on the printed trailing tokens: the braces token adds
exactly the printed W/L/E/P flags, and the optional bank-swizzle and cf
tokens restore the printed values (absent tokens leave the parse
defaults, which match the printed-nothing cases). -/
theorem parse_trailing_print (F : AluFlags) (w l e p : Bool)
    (bs : AluBankSwizzle) (cf : ECFAluOpCode)
    (hw : F.write = false) (hl : F.last_instr = false)
    (he : F.update_exec = false) (hp : F.update_pred = false) :
    parseTrailing (Tok.flagsTok w l e p :: (bankToks bs ++ cfToks cf)) F
        .alu_vec_unknown .cf_alu =
      Option.some ({ F with
        write := w, last_instr := l, update_exec := e,
        update_pred := p }, bs, cf) := by
  have hstep : ∀ G : AluFlags,
      parseTrailing (bankToks bs ++ cfToks cf) G .alu_vec_unknown
        .cf_alu = Option.some (G, bs, cf) := by
    intro G
    cases bs <;> cases cf <;> rfl
  cases w <;> cases l <;> cases e <;> cases p <;>
    first
      | exact (hstep _).trans
          (congrArg (fun G => Option.some (G, bs, cf))
            (flags_update_eta F false false false false hw hl he hp).symm)
      | exact (hstep _).trans
          (by simp [AluFlags.mk.injEq, hw, hl, he, hp])

/-- Reading `n` elements of a list by index from position `a` is a
drop/take slice. -/
theorem range_map_getD_eq_slice (l : List VirtualValue) (a n : Nat)
    (h : a + n ≤ l.length) :
    (List.range n).map (fun k => l.getD (a + k) (VirtualValue.literal 0)) =
      (l.drop a).take n := by
  induction n with
  | zero => rfl
  | succ n ih =>
    rw [List.range_succ, List.map_append, ih (by omega), List.take_succ]
    have hlt : a + n < l.length := by omega
    have hda : n < (l.drop a).length := by
      rw [List.length_drop]
      omega
    rw [List.getElem?_drop]
    rw [List.getElem?_eq_getElem hlt]
    simp only [List.map_cons, List.map_nil, Option.toList_some]
    rw [List.getD_eq_getElem l _ hlt]

/-- The operands printed for one slot are the slot's slice of the operand
list. -/
theorem grpVals_eq_slice (i : AluInstr) (nsrc s : Nat)
    (h : s * nsrc + nsrc ≤ i.src.length) :
    grpVals i nsrc s = (i.src.drop (s * nsrc)).take nsrc :=
  range_map_getD_eq_slice i.src (s * nsrc) nsrc h

/-- The operands printed for `m` slots starting at `s` are the
corresponding contiguous slice. -/
theorem valsFrom_eq_slice (i : AluInstr) (nsrc : Nat) :
    ∀ m s, (s + m) * nsrc ≤ i.src.length →
      valsFrom i nsrc s m = (i.src.drop (s * nsrc)).take (m * nsrc) := by
  intro m
  induction m with
  | zero =>
    intro s h
    rw [Nat.zero_mul]
    rfl
  | succ m ih =>
    intro s h
    have hsm : s * nsrc + nsrc ≤ i.src.length := by
      have h1 : (s + 1) * nsrc ≤ (s + (m + 1)) * nsrc :=
        Nat.mul_le_mul_right nsrc (by omega)
      have h2 : (s + 1) * nsrc = s * nsrc + nsrc := Nat.succ_mul s nsrc
      omega
    have hrec : (s + 1 + m) * nsrc ≤ i.src.length := by
      have : s + 1 + m = s + (m + 1) := by omega
      rw [this]
      exact h
    show grpVals i nsrc s ++ valsFrom i nsrc (s + 1) m = _
    rw [grpVals_eq_slice i nsrc s hsm, ih (s + 1) hrec]
    rw [show (m + 1) * nsrc = nsrc + m * nsrc from by
      rw [Nat.succ_mul, Nat.add_comm]]
    rw [List.take_add, List.drop_drop]
    rw [show (s + 1) * nsrc = s * nsrc + nsrc from Nat.succ_mul s nsrc]

/-- All printed operands together are the whole operand list. -/
theorem valsFrom_all (i : AluInstr) (nsrc : Nat)
    (hlen : i.src.length = nsrc * i.aluSlots) :
    valsFrom i nsrc 0 i.aluSlots = i.src := by
  rw [valsFrom_eq_slice i nsrc i.aluSlots 0
    (by rw [hlen, Nat.zero_add, Nat.mul_comm])]
  rw [show (0 : Nat) * nsrc = 0 from Nat.zero_mul nsrc, List.drop_zero]
  rw [show i.aluSlots * nsrc = i.src.length from by
    rw [hlen, Nat.mul_comm]]
  exact List.take_length i.src

/-- Each printed slot contributes at least one token (positive arity). -/
theorem printSrcToksFrom_length_ge (i : AluInstr) (nsrc : Nat)
    (hn : 1 ≤ nsrc) :
    ∀ rem s, rem ≤ (printSrcToksFrom i nsrc s rem).length := by
  intro rem
  induction rem with
  | zero =>
    intro s
    exact Nat.zero_le _
  | succ rem ih =>
    intro s
    show rem + 1 ≤ (((if 0 < s then [Tok.plus] else []) ++
      groupToks i nsrc s) ++ printSrcToksFrom i nsrc (s + 1) rem).length
    have hg : (groupToks i nsrc s).length = nsrc := by
      simp [groupToks]
    have := ih (s + 1)
    simp only [List.length_append, hg]
    omega

/-- `equal_to` is reflexive on base registers. -/
theorem simpleReg_equalTo_self (a : SimpleReg) : a.equalTo a = true := by
  simp [SimpleReg.equalTo]

/-- `equal_to` is reflexive on registers. -/
theorem register_equalTo_self (a : Register) : a.equalTo a = true :=
  simpleReg_equalTo_self a.base

/-- `equal_to` is reflexive on virtual values. -/
theorem virtualValue_equalTo_self (v : VirtualValue) :
    v.equalTo v = true := by
  cases v <;>
    simp [VirtualValue.equalTo, Register.equalTo, SimpleReg.equalTo]

/-- The pairwise `equal_to` check of `is_equal_to` holds on a list zipped
with itself. -/
theorem zip_self_all_equalTo (l : List VirtualValue) :
    (List.zip l l).all (fun q => q.1.equalTo q.2) = true := by
  induction l with
  | nil => rfl
  | cons a t ih =>
    rw [List.zip_cons_cons, List.all_cons, virtualValue_equalTo_self, ih]
    rfl

/-- The flag set reconstructed by `from_string` (parsed base flags, the
W/L/E/P insertions, and the constructor's automatic `op3`) equals the
original flag set, provided the original carries no flag the text form
does not encode. -/
theorem flags_reconstruct (fl : AluFlags) (len : Nat)
    (hrel0 : fl.src0_rel = false) (hrel1 : fl.src1_rel = false)
    (hrel2 : fl.src2_rel = false) (hlds : fl.is_lds = false)
    (hcay : fl.is_cayman_trans = false) (hb64 : fl.b64_op = false)
    (hnsb : fl.no_schedule_bias = false)
    (hop3 : fl.op3 = decide (len = 3)) :
    (if len = 3 then
      { ({ parsedBase fl with
          write := fl.write, last_instr := fl.last_instr,
          update_exec := fl.update_exec,
          update_pred := fl.update_pred }) with op3 := true }
     else
      { parsedBase fl with
        write := fl.write, last_instr := fl.last_instr,
        update_exec := fl.update_exec,
        update_pred := fl.update_pred }) = fl := by
  obtain ⟨s0n, s1n, s2n, s0a, s1a, s0r, s1r, s2r, w, li, ue, up, dc, o3,
    lds, cay, b64, nsb⟩ := fl
  simp only at hrel0 hrel1 hrel2 hlds hcay hb64 hnsb hop3
  subst hrel0
  subst hrel1
  subst hrel2
  subst hlds
  subst hcay
  subst hb64
  subst hnsb
  subst hop3
  split_ifs with h3
  · simp [parsedBase, h3]
  · simp [parsedBase, h3]

/-- Every modelled regular opcode has between one and three sources. -/
theorem aluNsrc_cases (op : EAluOp) :
    aluNsrc op = 1 ∨ aluNsrc op = 2 ∨ aluNsrc op = 3 := by
  cases op <;> simp [aluNsrc]

/-- Projections of `reparsed`. -/
theorem reparsed_opcode (op : EAluOp) (dst : Option Register)
    (src : List VirtualValue) (fl : AluFlags) (slots : Nat)
    (bs : AluBankSwizzle) (cf : ECFAluOpCode) :
    (reparsed op dst src fl slots bs cf).opcode = op := rfl

theorem reparsed_dest (op : EAluOp) (dst : Option Register)
    (src : List VirtualValue) (fl : AluFlags) (slots : Nat)
    (bs : AluBankSwizzle) (cf : ECFAluOpCode) :
    (reparsed op dst src fl slots bs cf).dest = dst := rfl

theorem reparsed_src (op : EAluOp) (dst : Option Register)
    (src : List VirtualValue) (fl : AluFlags) (slots : Nat)
    (bs : AluBankSwizzle) (cf : ECFAluOpCode) :
    (reparsed op dst src fl slots bs cf).src = src := rfl

theorem reparsed_bank (op : EAluOp) (dst : Option Register)
    (src : List VirtualValue) (fl : AluFlags) (slots : Nat)
    (bs : AluBankSwizzle) (cf : ECFAluOpCode) :
    (reparsed op dst src fl slots bs cf).bankSwizzle = bs := rfl

theorem reparsed_cf (op : EAluOp) (dst : Option Register)
    (src : List VirtualValue) (fl : AluFlags) (slots : Nat)
    (bs : AluBankSwizzle) (cf : ECFAluOpCode) :
    (reparsed op dst src fl slots bs cf).cfType = cf := rfl

theorem reparsed_flags (op : EAluOp) (dst : Option Register)
    (src : List VirtualValue) (fl : AluFlags) (slots : Nat)
    (bs : AluBankSwizzle) (cf : ECFAluOpCode) :
    (reparsed op dst src fl slots bs cf).flags =
      (if src.length = 3 then { fl with op3 := true } else fl) := rfl

/-- C1 (amended): the print/parse round trip, up to `is_equal_to`, holds
for every non-LDS instruction that has a destination and at least one
slot, under the constructor arity invariant, provided its flags are
limited to those the text form encodes: neg/abs only on sources that
exist, `op3` exactly when there are three sources, and no rel,
cayman-trans, 64-bit-op or no-schedule-bias flags. -/
theorem c1_roundtrip_amended (i : AluInstr) (d : Register)
    (hdest : i.dest = Option.some d)
    (hldsf : i.flags.is_lds = false)
    (hslots : 1 ≤ i.aluSlots)
    (hlen : i.src.length = aluNsrc i.opcode * i.aluSlots)
    (hop3 : i.flags.op3 = decide (i.src.length = 3))
    (hrel0 : i.flags.src0_rel = false) (hrel1 : i.flags.src1_rel = false)
    (hrel2 : i.flags.src2_rel = false)
    (hcay : i.flags.is_cayman_trans = false)
    (hb64 : i.flags.b64_op = false)
    (hnsb : i.flags.no_schedule_bias = false)
    (hneg : ∀ k, negFlagOf i.flags k = true → k < aluNsrc i.opcode)
    (habs : ∀ k, absFlagOf i.flags k = true → k < aluNsrc i.opcode) :
    ∃ j, fromString (printTokens i) = Option.some j ∧
      isEqualTo i j = true := by
  obtain ⟨rem, hrem⟩ : ∃ rem, i.aluSlots = rem + 1 :=
    ⟨i.aluSlots - 1, by omega⟩
  have hn1 : 1 ≤ aluNsrc i.opcode := by
    rcases aluNsrc_cases i.opcode with h | h | h <;> omega
  -- the group-parse behaviour, per arity
  have hglpair :
      (∀ rest acc, parseSrcGroup true 0 (aluNsrc i.opcode)
          (groupToks i (aluNsrc i.opcode) 0 ++ rest)
          { dst_clamp := i.flags.dst_clamp } acc =
        Option.some (rest, parsedBase i.flags,
          acc ++ grpVals i (aluNsrc i.opcode) 0)) ∧
      (∀ s rest acc, 1 ≤ s → parseSrcGroup false 0 (aluNsrc i.opcode)
          (groupToks i (aluNsrc i.opcode) s ++ rest)
          (parsedBase i.flags) acc =
        Option.some (rest, parsedBase i.flags,
          acc ++ grpVals i (aluNsrc i.opcode) s)) := by
    rcases aluNsrc_cases i.opcode with hn | hn | hn
    · have e1 : i.flags.src1_neg = false := by
        cases hv : i.flags.src1_neg
        · rfl
        · have := hneg 1 hv
          rw [hn] at this
          omega
      have e2 : i.flags.src2_neg = false := by
        cases hv : i.flags.src2_neg
        · rfl
        · have := hneg 2 hv
          rw [hn] at this
          omega
      have e3 : i.flags.src1_abs = false := by
        cases hv : i.flags.src1_abs
        · rfl
        · have := habs 1 hv
          rw [hn] at this
          omega
      rw [hn]
      exact ⟨fun rest acc => gl0_n1 i rest acc e1 e2 e3,
        fun s rest acc _ => gls_n1 i s rest acc⟩
    · have e2 : i.flags.src2_neg = false := by
        cases hv : i.flags.src2_neg
        · rfl
        · have := hneg 2 hv
          rw [hn] at this
          omega
      rw [hn]
      exact ⟨fun rest acc => gl0_n2 i rest acc e2,
        fun s rest acc hs => gls_n2 i s hs rest acc⟩
    · rw [hn]
      exact ⟨fun rest acc => gl0_n3 i rest acc,
        fun s rest acc hs => gls_n3 i s hs rest acc⟩
  -- the trailing tokens
  have htrail : parseTrailing
      (Tok.flagsTok i.flags.write i.flags.last_instr i.flags.update_exec
        i.flags.update_pred :: (bankToks i.bankSwizzle ++ cfToks i.cfType))
      (parsedBase i.flags) .alu_vec_unknown .cf_alu =
      Option.some ({ parsedBase i.flags with
        write := i.flags.write, last_instr := i.flags.last_instr,
        update_exec := i.flags.update_exec,
        update_pred := i.flags.update_pred },
        i.bankSwizzle, i.cfType) :=
    parse_trailing_print (parsedBase i.flags) i.flags.write
      i.flags.last_instr i.flags.update_exec i.flags.update_pred
      i.bankSwizzle i.cfType rfl rfl rfl rfl
  -- the slot loop on the printed stream
  have hTAIL : printSrcToksFrom i (aluNsrc i.opcode) 0 (rem + 1) ++
      (Tok.flagsTok i.flags.write i.flags.last_instr i.flags.update_exec
        i.flags.update_pred ::
        (bankToks i.bankSwizzle ++ cfToks i.cfType)) =
      groupToks i (aluNsrc i.opcode) 0 ++
        (printSrcToksFrom i (aluNsrc i.opcode) 1 rem ++
          (Tok.flagsTok i.flags.write i.flags.last_instr
            i.flags.update_exec i.flags.update_pred ::
            (bankToks i.bankSwizzle ++ cfToks i.cfType))) := by
    rw [show printSrcToksFrom i (aluNsrc i.opcode) 0 (rem + 1) =
      groupToks i (aluNsrc i.opcode) 0 ++
        printSrcToksFrom i (aluNsrc i.opcode) 1 rem from rfl]
    rw [List.append_assoc]
  have hfuel : rem + 1 ≤
      (Tok.colon :: (printSrcToksFrom i (aluNsrc i.opcode) 0 (rem + 1) ++
        (Tok.flagsTok i.flags.write i.flags.last_instr i.flags.update_exec
          i.flags.update_pred ::
          (bankToks i.bankSwizzle ++ cfToks i.cfType)))).length := by
    have := printSrcToksFrom_length_ge i (aluNsrc i.opcode) hn1 (rem + 1) 0
    simp only [List.length_cons, List.length_append]
    omega
  have hsl0 := parse_slots_print i (aluNsrc i.opcode)
    { dst_clamp := i.flags.dst_clamp } (parsedBase i.flags)
    hglpair.1 hglpair.2 rem
    ((Tok.colon :: (printSrcToksFrom i (aluNsrc i.opcode) 0 (rem + 1) ++
      (Tok.flagsTok i.flags.write i.flags.last_instr i.flags.update_exec
        i.flags.update_pred ::
        (bankToks i.bankSwizzle ++ cfToks i.cfType)))).length + 1)
    0 Tok.colon { dst_clamp := i.flags.dst_clamp } []
    (Tok.flagsTok i.flags.write i.flags.last_instr i.flags.update_exec
      i.flags.update_pred :: (bankToks i.bankSwizzle ++ cfToks i.cfType))
    (by omega) rfl (Or.inl ⟨rfl, rfl⟩)
  rw [← hTAIL] at hsl0
  rw [List.nil_append, Nat.zero_add] at hsl0
  rw [← hrem] at hsl0
  rw [valsFrom_all i (aluNsrc i.opcode) hlen] at hsl0
  -- destination resolution
  have hdt : destFromTok (destTok i) = Option.some (Option.some
      (if i.flags.write then d else blankReg d.base.chan d.base.pin)) := by
    unfold destTok
    rw [hdest]
    cases hw : i.flags.write <;> simp [destFromTok]
  -- construction
  have hmk : mkAluInstrChecked i.opcode
      (Option.some (if i.flags.write then d
        else blankReg d.base.chan d.base.pin))
      i.src
      { parsedBase i.flags with
        write := i.flags.write, last_instr := i.flags.last_instr,
        update_exec := i.flags.update_exec,
        update_pred := i.flags.update_pred }
      i.aluSlots =
      Option.some (mkAluInstr i.opcode
        (Option.some (if i.flags.write then d
          else blankReg d.base.chan d.base.pin))
        i.src
        { parsedBase i.flags with
          write := i.flags.write, last_instr := i.flags.last_instr,
          update_exec := i.flags.update_exec,
          update_pred := i.flags.update_pred }
        i.aluSlots) := by
    unfold mkAluInstrChecked
    rw [if_pos hlen]
    rw [show (({ parsedBase i.flags with
        write := i.flags.write, last_instr := i.flags.last_instr,
        update_exec := i.flags.update_exec,
        update_pred := i.flags.update_pred } : AluFlags).write &&
        (Option.some (if i.flags.write then d
          else blankReg d.base.chan d.base.pin)).isNone) = false from by
      simp]
    rw [if_neg Bool.false_ne_true]
  -- assemble the parse
  have hparse : fromString (printTokens i) = Option.some
      (reparsed i.opcode
        (Option.some (if i.flags.write then d
          else blankReg d.base.chan d.base.pin))
        i.src
        { parsedBase i.flags with
          write := i.flags.write, last_instr := i.flags.last_instr,
          update_exec := i.flags.update_exec,
          update_pred := i.flags.update_pred }
        i.aluSlots i.bankSwizzle i.cfType) := by
    have hshape : printTokens i = Tok.alu ::
        (hdrToks i ++ (Tok.colon ::
          (printSrcToksFrom i (aluNsrc i.opcode) 0 i.aluSlots ++
            (Tok.flagsTok i.flags.write i.flags.last_instr
              i.flags.update_exec i.flags.update_pred ::
              (bankToks i.bankSwizzle ++ cfToks i.cfType))))) := by
      simp only [printTokens]
      rw [show (if i.flags.is_lds = true then i.src.length
        else aluNsrc i.opcode) = aluNsrc i.opcode from by rw [hldsf]; rfl]
      simp [List.append_assoc]
    rw [hshape]
    show fromTokens (hdrToks i ++ (Tok.colon ::
      (printSrcToksFrom i (aluNsrc i.opcode) 0 i.aluSlots ++
        (Tok.flagsTok i.flags.write i.flags.last_instr
          i.flags.update_exec i.flags.update_pred ::
          (bankToks i.bankSwizzle ++ cfToks i.cfType))))) = _
    exact fromTokens_eval
      (hdrToks i ++ (Tok.colon ::
        (printSrcToksFrom i (aluNsrc i.opcode) 0 i.aluSlots ++
          (Tok.flagsTok i.flags.write i.flags.last_instr
            i.flags.update_exec i.flags.update_pred ::
            (bankToks i.bankSwizzle ++ cfToks i.cfType)))))
      i.opcode { dst_clamp := i.flags.dst_clamp } (destTok i)
      (printSrcToksFrom i (aluNsrc i.opcode) 0 i.aluSlots ++
        (Tok.flagsTok i.flags.write i.flags.last_instr
          i.flags.update_exec i.flags.update_pred ::
          (bankToks i.bankSwizzle ++ cfToks i.cfType)))
      (Tok.flagsTok i.flags.write i.flags.last_instr
        i.flags.update_exec i.flags.update_pred ::
        (bankToks i.bankSwizzle ++ cfToks i.cfType))
      (parsedBase i.flags)
      { parsedBase i.flags with
        write := i.flags.write, last_instr := i.flags.last_instr,
        update_exec := i.flags.update_exec,
        update_pred := i.flags.update_pred }
      i.src i.aluSlots i.bankSwizzle i.cfType
      (Option.some (if i.flags.write then d
        else blankReg d.base.chan d.base.pin))
      (mkAluInstr i.opcode
        (Option.some (if i.flags.write then d
          else blankReg d.base.chan d.base.pin))
        i.src
        { parsedBase i.flags with
          write := i.flags.write, last_instr := i.flags.last_instr,
          update_exec := i.flags.update_exec,
          update_pred := i.flags.update_pred }
        i.aluSlots)
      (parseHeader_print i (Tok.colon ::
        (printSrcToksFrom i (aluNsrc i.opcode) 0 i.aluSlots ++
          (Tok.flagsTok i.flags.write i.flags.last_instr
            i.flags.update_exec i.flags.update_pred ::
            (bankToks i.bankSwizzle ++ cfToks i.cfType)))) hldsf)
      hsl0 htrail hdt hmk
  refine ⟨_, hparse, ?_⟩
  -- the reconstructed instruction is equal_to the original
  have hJfl : (reparsed i.opcode
      (Option.some (if i.flags.write then d
        else blankReg d.base.chan d.base.pin))
      i.src
      { parsedBase i.flags with
        write := i.flags.write, last_instr := i.flags.last_instr,
        update_exec := i.flags.update_exec,
        update_pred := i.flags.update_pred }
      i.aluSlots i.bankSwizzle i.cfType).flags = i.flags := by
    rw [reparsed_flags]
    exact flags_reconstruct i.flags i.src.length hrel0 hrel1 hrel2 hldsf
      hcay hb64 hnsb hop3
  unfold isEqualTo
  rw [hJfl, reparsed_opcode, reparsed_bank, reparsed_cf, reparsed_dest,
    reparsed_src, hdest]
  cases hw : i.flags.write <;>
    simp [register_equalTo_self, zip_self_all_equalTo, blankReg]
/-- Counterexample to C1 as stated: a move constructible by the public
constructor (carrying the 64-bit-op modifier) prints and re-parses to an
instruction that `is_equal_to` rejects, because the text form does not
encode that flag while `is_equal_to` compares the whole flag set. -/
theorem c1_counterexample :
    mkAluInstrChecked .op1_mov (Option.some regR0x)
        [VirtualValue.reg regR1x] { write := true, b64_op := true } 1 =
      Option.some c1bad ∧
    (fromString (printTokens c1bad)).map (isEqualTo c1bad) =
      Option.some false := by
  decide

/-- Witness for the amended C1 at the spec's own example
`ALU ADD R0.x : R1.x R2.x {W}`. -/
theorem c1_witness :
    ∃ j, fromString (printTokens addExample) = Option.some j ∧
      isEqualTo addExample j = true :=
  c1_roundtrip_amended addExample regR0x (by decide) (by decide)
    (by decide) (by decide) (by decide) (by decide) (by decide)
    (by decide) (by decide) (by decide) (by decide)
    (fun k hk => by
      match k with
      | 0 => exact absurd hk (by decide)
      | 1 => exact absurd hk (by decide)
      | 2 => exact absurd hk (by decide)
      | n + 3 => exact absurd hk Bool.false_ne_true)
    (fun k hk => by
      match k with
      | 0 => exact absurd hk (by decide)
      | 1 => exact absurd hk (by decide)
      | n + 2 => exact absurd hk Bool.false_ne_true)

end R600
